import Mathlib

/-!
# opkg transaction engine (`libopkg/opkg.c`)

A shallow embedding of the orchestration functions of `libopkg/opkg.c`:
`opkg_configure_packages`, `opkg_install_package`, `opkg_remove_package`,
`opkg_upgrade_package`, `opkg_upgrade_all` and `opkg_update_package_lists`.

Conventions of the embedding.

* A `pkg_t *` is an address (`Nat`) into the record store `opkg_conf_t.pkgs`;
  a pointer that may be `NULL` is an `Option Nat`.  The parent of a record is
  an address in the same store, so a parent may or may not be a package of the
  fetched vector; the theorems hold in both cases.
* Every function that `opkg.c` calls but does not define (hash queries,
  `fnmatch`, the configure / install / remove / upgrade collaborators, the
  persistence routines, the file and download primitives) is a field of the
  structure `Ext`.  A collaborator that receives `conf` may change every part
  of it, so it is a function from `opkg_conf_t` to a return code and a new
  `opkg_conf_t`.
* `State.trace` is ghost state: the engine appends one `Event` for every
  collaborator invocation and every value handed to the progress sink.
  Collaborators cannot touch it.
* C `int` values are `Int`; the only arithmetic of `opkg.c` that can leave the
  32-bit range (`err += ...`, `100 * i`) goes through `wrap_int`, and `/` is
  the truncating `Int.tdiv`.  `state_flag` is the 32-bit word as a `Nat`.
* The download collaborator `opkg_download (conf, url, dest, cb, data)` is told
  whether a progress function is passed and returns its code, the new
  configuration and the `(dltotal, dlnow)` reports it made to that function
  during the transfer.  The engine runs `curl_progress_cb` on these reports;
  its sink calls are the events `download_progress`, apart from the events
  `progress` of the macro `progress`.
* A function whose run can end in a call through a `NULL` pointer returns an
  `Option`; `none` is that crash.
-/

namespace Opkg

/-- Modelled from the spec: `pkg.h` is absent; the status enumeration holds the
states the specification names (`NOT_INSTALLED`, `UNPACKED`, `HALF_CONFIGURED`,
`INSTALLED`) and the externally driven failure states, kept abstract. -/
inductive pkg_state_status_t where
  | SS_NOT_INSTALLED
  | SS_UNPACKED
  | SS_HALF_CONFIGURED
  | SS_INSTALLED
  | SS_FAILED (k : Nat)
  deriving DecidableEq, Repr

open pkg_state_status_t

/-- Modelled from the spec: `pkg.h` is absent; a package record carries the
fields `opkg.c` reads and writes (`name`, `state_status`, `state_flag`,
`parent`) and the destination it belongs to.  `parent` is the address of the
parent record. -/
structure pkg_t where
  name : String
  state_status : pkg_state_status_t
  state_flag : Nat
  parent : Nat
  dest : Nat
  deriving DecidableEq, Repr

/-- Modelled from the spec: `pkg_src.h` is absent; a source descriptor has a
name, a base value, an optional extra path segment and a compression flag. -/
structure pkg_src_t where
  name : String
  value : String
  extra_data : Option String
  gzip : Bool
  deriving DecidableEq, Repr

/-- Modelled from the spec: `opkg_conf.h` is absent; the configuration holds
the record store behind `pkg_hash`, the fields `opkg.c` reads, and `world`,
everything else a collaborator can see or change (files, network, the hash
indices). -/
structure opkg_conf_t (W : Type) where
  pkgs : Nat → pkg_t
  multiple_providers : Int
  restrict_to_default_dest : Int
  default_dest : Nat
  lists_dir : String
  default_dest_lists_dir : String
  pkg_src_list : List pkg_src_t
  world : W

/-- One observable action of the engine: a collaborator call (with its
arguments and, where it has one, its return code), a value handed to the sink
by the macro `progress`, or a value handed to the sink by `curl_progress_cb`
(`download_progress`). -/
inductive Event where
  | progress (percent : Int)
  | configure (pkg : Nat) (ret : Int)
  | prepare_url (name : String)
  | preinstall_check
  | install_by_name (id : String) (ret : Int)
  | install_multi_by_name (id : String) (ret : Int)
  | remove (pkg : Option Nat) (purge : Int) (ret : Int)
  | upgrade (pkg : Nat) (ret : Int)
  | write_status_files
  | write_changed_filelists
  | mkdir_hier (dir : String) (ret : Int)
  | mkdtemp (ok : Bool)
  | download (url : String) (dest : String) (cb_data : Option (Int × Int)) (ret : Int)
  | download_progress (percent : Int)
  | download_sig (url : String) (dest : String) (ret : Int)
  | fopen (path : String) (mode : String) (ok : Bool)
  | unzip (src : String) (dst : String)
  | fclose (path : String)
  | unlink (path : String)
  | verify_file (file : String) (sig : String) (ret : Int)
  | rmdir (path : String)
  deriving DecidableEq, Repr

/-- The configuration together with the ghost trace of events so far. -/
structure State (W : Type) where
  conf : opkg_conf_t W
  trace : List Event

/-- Everything `opkg.c` uses without defining it. -/
structure Ext (W : Type) where
  SF_PREFER : Nat
  fnmatch : String → String → Int
  pkg_hash_fetch_available : opkg_conf_t W → List Nat
  pkg_hash_fetch_all_installed : opkg_conf_t W → List Nat
  pkg_hash_fetch_installed_by_name : opkg_conf_t W → String → Option Nat
  pkg_hash_fetch_installed_by_name_dest : opkg_conf_t W → String → Nat → Option Nat
  opkg_configure : opkg_conf_t W → Nat → Int × opkg_conf_t W
  opkg_prepare_url_for_install : opkg_conf_t W → String → Option String × opkg_conf_t W
  pkg_info_preinstall_check : opkg_conf_t W → opkg_conf_t W
  opkg_install_by_name : opkg_conf_t W → String → Int × opkg_conf_t W
  opkg_install_multi_by_name : opkg_conf_t W → String → Int × opkg_conf_t W
  opkg_remove_pkg : opkg_conf_t W → Option Nat → Int → Int × opkg_conf_t W
  opkg_upgrade_pkg : opkg_conf_t W → Nat → Int × opkg_conf_t W
  opkg_conf_write_status_files : opkg_conf_t W → opkg_conf_t W
  pkg_write_changed_filelists : opkg_conf_t W → opkg_conf_t W
  file_is_dir : opkg_conf_t W → String → Bool
  file_exists : opkg_conf_t W → String → Bool
  file_mkdir_hier : opkg_conf_t W → String → Int × opkg_conf_t W
  mkdtemp : opkg_conf_t W → String → Option String × opkg_conf_t W
  opkg_download :
    opkg_conf_t W → String → String → Bool → Int × opkg_conf_t W × List (Int × Int)
  fopen : opkg_conf_t W → String → String → Bool × opkg_conf_t W
  unzip : opkg_conf_t W → String → String → opkg_conf_t W
  fclose : opkg_conf_t W → String → opkg_conf_t W
  unlink : opkg_conf_t W → String → opkg_conf_t W
  opkg_verify_file : opkg_conf_t W → String → String → Int × opkg_conf_t W
  rmdir : opkg_conf_t W → String → opkg_conf_t W
  have_gpgme : Bool

/-- The assignment `flag &= ~mask` on 32-bit words: `~mask` is the 32-bit
complement of `mask`. -/
def clear_bits (flag mask : Nat) : Nat := flag &&& (4294967295 ^^^ mask)

/-- Two's-complement wrap of an `int` result to 32 bits. -/
def wrap_int (x : Int) : Int := (x + 2147483648) % 4294967296 - 2147483648

/-- Store `f (pkgs a)` at address `a` (an assignment through a `pkg_t *`). -/
def opkg_conf_t.modify {W : Type} (c : opkg_conf_t W) (a : Nat) (f : pkg_t → pkg_t) :
    opkg_conf_t W :=
  { c with pkgs := fun b => if b = a then f (c.pkgs a) else c.pkgs b }

/-- Append an event to the ghost trace. -/
def State.emit {W : Type} (s : State W) (e : Event) : State W :=
  { s with trace := s.trace ++ [e] }

/-- The macro `progress(percent)`: the sink is invoked only when a callback
was supplied. -/
def progress {W : Type} (progress_callback : Bool) (s : State W) (percent : Int) : State W :=
  if progress_callback then s.emit (Event.progress percent) else s

/-- The test `pkg_name && fnmatch (pkg_name, pkg->name, 0)`: true when a
pattern was given and the name does not match it. -/
def name_filtered {W : Type} (X : Ext W) (pkg_name : Option String) (name : String) : Bool :=
  match pkg_name with
  | none => false
  | some pat => decide (X.fnmatch pat name ≠ 0)

/-- The loop variables of `opkg_configure_packages`. -/
structure ConfigureLoop (W : Type) where
  st : State W
  err : Int

/-- The body of the `for` loop of `opkg_configure_packages` for `pkg = all->pkgs[i]`. -/
def configure_step {W : Type} (X : Ext W) (pkg_name : Option String)
    (l : ConfigureLoop W) (pkg : Nat) : ConfigureLoop W :=
  if name_filtered X pkg_name (l.st.conf.pkgs pkg).name then l
  else if (l.st.conf.pkgs pkg).state_status = SS_UNPACKED then
    let rc := X.opkg_configure l.st.conf pkg
    let r := rc.1
    let st : State W := { conf := rc.2, trace := l.st.trace ++ [Event.configure pkg r] }
    if r = 0 then
      let c1 := st.conf.modify pkg (fun p => { p with state_status := SS_INSTALLED })
      let c2 := c1.modify (c1.pkgs pkg).parent (fun p => { p with state_status := SS_INSTALLED })
      let c3 := c2.modify pkg
        (fun p => { p with state_flag := clear_bits p.state_flag X.SF_PREFER })
      { st := { st with conf := c3 }, err := l.err }
    else
      { st := st, err := if l.err = 0 then r else l.err }
  else l

/-- The `for` loop of `opkg_configure_packages` over the fetched vector. -/
def configure_loop {W : Type} (X : Ext W) (pkg_name : Option String)
    (l : ConfigureLoop W) (all : List Nat) : ConfigureLoop W :=
  all.foldl (configure_step X pkg_name) l

/-- `opkg_configure_packages (conf, pkg_name)`; `pkg_name = NULL` is `none`. -/
def opkg_configure_packages {W : Type} (X : Ext W) (s : State W)
    (pkg_name : Option String) : Int × State W :=
  let all := X.pkg_hash_fetch_available s.conf
  let l := configure_loop X pkg_name { st := s, err := 0 } all
  (l.err, l.st)

/-- Lines 349-370 of `opkg_install_package`: progress, URL preparation, the
pre-install check and the delegated unpack; returns the installer's code. -/
def install_unpack_phase {W : Type} (X : Ext W) (s : State W) (package_name : String)
    (progress_callback : Bool) : Int × State W :=
  let s := progress progress_callback s 0
  let pu := X.opkg_prepare_url_for_install s.conf package_name
  let s : State W := { conf := pu.2, trace := s.trace ++ [Event.prepare_url package_name] }
  let s := progress progress_callback s 50
  let s : State W :=
    { conf := X.pkg_info_preinstall_check s.conf, trace := s.trace ++ [Event.preinstall_check] }
  let package_id := match pu.1 with
    | some id => id
    | none => package_name
  if s.conf.multiple_providers ≠ 0 then
    let rc := X.opkg_install_multi_by_name s.conf package_id
    (rc.1, { conf := rc.2, trace := s.trace ++ [Event.install_multi_by_name package_id rc.1] })
  else
    let rc := X.opkg_install_by_name s.conf package_id
    (rc.1, { conf := rc.2, trace := s.trace ++ [Event.install_by_name package_id rc.1] })

/-- The two persistence calls `opkg_conf_write_status_files (conf);
pkg_write_changed_filelists (conf);`. -/
def write_out {W : Type} (X : Ext W) (s : State W) : State W :=
  let s : State W :=
    { conf := X.opkg_conf_write_status_files s.conf,
      trace := s.trace ++ [Event.write_status_files] }
  { conf := X.pkg_write_changed_filelists s.conf,
    trace := s.trace ++ [Event.write_changed_filelists] }

/-- `opkg_install_package (opkg, package_name, progress_callback, user_data)`. -/
def opkg_install_package {W : Type} (X : Ext W) (s : State W) (package_name : String)
    (progress_callback : Bool) : Int × State W :=
  let u := install_unpack_phase X s package_name progress_callback
  if u.1 ≠ 0 then (u.1, u.2)
  else
    let s := progress progress_callback u.2 75
    let c := opkg_configure_packages X s none
    if c.1 ≠ 0 then (c.1, c.2)
    else
      let s := write_out X c.2
      let s := progress progress_callback s 100
      (0, s)

/-- `opkg_remove_package (opkg, package_name, progress_callback, user_data)`. -/
def opkg_remove_package {W : Type} (X : Ext W) (s : State W) (package_name : String)
    (progress_callback : Bool) : Int × State W :=
  let s := progress progress_callback s 0
  let s : State W :=
    { conf := X.pkg_info_preinstall_check s.conf, trace := s.trace ++ [Event.preinstall_check] }
  let _installed_pkgs := X.pkg_hash_fetch_all_installed s.conf
  let s := progress progress_callback s 25
  match X.pkg_hash_fetch_installed_by_name s.conf package_name with
  | none => (1, s)
  | some pkg =>
    if (s.conf.pkgs pkg).state_status = SS_NOT_INSTALLED then (1, s)
    else
      let s := progress progress_callback s 75
      let pkg_to_remove :=
        if s.conf.restrict_to_default_dest ≠ 0 then
          X.pkg_hash_fetch_installed_by_name_dest s.conf (s.conf.pkgs pkg).name
            s.conf.default_dest
        else
          X.pkg_hash_fetch_installed_by_name s.conf (s.conf.pkgs pkg).name
      let s := progress progress_callback s 75
      let rc := X.opkg_remove_pkg s.conf pkg_to_remove 0
      let s : State W :=
        { conf := rc.2, trace := s.trace ++ [Event.remove pkg_to_remove 0 rc.1] }
      let s := write_out X s
      let s := progress progress_callback s 100
      (0, s)

/-- `opkg_upgrade_package (opkg, package_name, progress_callback, user_data)`. -/
def opkg_upgrade_package {W : Type} (X : Ext W) (s : State W) (package_name : String)
    (progress_callback : Bool) : Int × State W :=
  let s := progress progress_callback s 0
  let s : State W :=
    { conf := X.pkg_info_preinstall_check s.conf, trace := s.trace ++ [Event.preinstall_check] }
  let pkg :=
    if s.conf.restrict_to_default_dest ≠ 0 then
      X.pkg_hash_fetch_installed_by_name_dest s.conf package_name s.conf.default_dest
    else
      X.pkg_hash_fetch_installed_by_name s.conf package_name
  match pkg with
  | none => (1, s)
  | some pkg =>
    let s := progress progress_callback s 25
    let rc := X.opkg_upgrade_pkg s.conf pkg
    let s : State W := { conf := rc.2, trace := s.trace ++ [Event.upgrade pkg rc.1] }
    let s := progress progress_callback s 75
    let c := opkg_configure_packages X s none
    let s := progress progress_callback c.2 100
    (0, s)

/-- The loop variables of `opkg_upgrade_all`. -/
structure UpgradeLoop (W : Type) where
  st : State W
  err : Int
  i : Int

/-- The body of the `for` loop of `opkg_upgrade_all`; `len` is `installed->len`. -/
def upgrade_step {W : Type} (X : Ext W) (progress_callback : Bool) (len : Int)
    (l : UpgradeLoop W) (pkg : Nat) : UpgradeLoop W :=
  let rc := X.opkg_upgrade_pkg l.st.conf pkg
  let st : State W := { conf := rc.2, trace := l.st.trace ++ [Event.upgrade pkg rc.1] }
  let err := wrap_int (l.err + rc.1)
  let st := progress progress_callback st (Int.tdiv (wrap_int (100 * l.i)) len)
  { st := st, err := err, i := l.i + 1 }

/-- `opkg_upgrade_all (opkg, progress_callback, user_data)`. -/
def opkg_upgrade_all {W : Type} (X : Ext W) (s : State W) (progress_callback : Bool) :
    Int × State W :=
  let s := progress progress_callback s 0
  let s : State W :=
    { conf := X.pkg_info_preinstall_check s.conf, trace := s.trace ++ [Event.preinstall_check] }
  let installed := X.pkg_hash_fetch_all_installed s.conf
  let l := installed.foldl (upgrade_step X progress_callback installed.length)
    { st := s, err := 0, i := 0 }
  if l.err ≠ 0 then (1, l.st)
  else
    let c := opkg_configure_packages X l.st none
    if c.1 ≠ 0 then (1, c.2)
    else
      let s := progress progress_callback c.2 100
      (0, s)

/-- `struct _curl_cb_data` (lines 91-98): `cb` tells whether the sink pointer
`cb_data.cb` is non-NULL; the `opkg` and `user_data` members are only passed
on to the sink. -/
structure curl_cb_data where
  cb : Bool
  start_range : Int
  finish_range : Int
  deriving DecidableEq, Repr

/-- `curl_progress_cb (cb_data, t, d, ultotal, ulnow)` (lines 100-123) for one
report of the transfer, `t` being `dltotal` and `d` being `dlnow`; `prev` is
the function's `static int prev`, and the new value of it is returned with the
state.  The byte counts are integers here and the `double` expressions
`d * 100 / t` and `start_range + d / t * (finish_range - start_range)` are
computed exactly and then truncated to `int`; rounding of `double`s is not
modelled.  The result is `none` when line 118 calls a sink pointer that is
`NULL`. -/
def curl_progress_cb {W : Type} (cb_data : curl_cb_data) (s : State W) (prev : Int)
    (t d : Int) : Option (State W × Int) :=
  let p : Int := if t ≠ 0 then Int.tdiv (d * 100) t else 0
  if p = prev then some (s, prev)
  else if t < 1 then some (s, p)
  else if cb_data.cb then
    some (s.emit (Event.download_progress
      (Int.tdiv (cb_data.start_range * t + d * (cb_data.finish_range - cb_data.start_range))
        t)), p)
  else none

/-- The calls of `curl_progress_cb` made by one download, one for each
`(dltotal, dlnow)` report of the transfer, in order. -/
def curl_progress_reports {W : Type} (cb_data : curl_cb_data) :
    List (Int × Int) → State W → Int → Option (State W × Int)
  | [], s, prev => some (s, prev)
  | r :: rs, s, prev =>
    match curl_progress_cb cb_data s prev r.1 r.2 with
    | none => none
    | some a => curl_progress_reports cb_data rs a.1 a.2

/-- The loop variables of `opkg_update_package_lists`, and the `static int
prev` of `curl_progress_cb`. -/
structure UpdateLoop (W : Type) where
  st : State W
  sources_done : Int
  prev : Int

/-- What a run of `opkg_update_package_lists` that returns leaves behind: the
value returned, the state, and the `static int prev` of `curl_progress_cb`. -/
structure UpdateResult (W : Type) where
  ret : Int
  st : State W
  prev : Int

/-- The URL of the package list of a source (lines 592-596). -/
def list_url (src : pkg_src_t) : String :=
  let file := if src.gzip then "Packages.gz" else "Packages"
  match src.extra_data with
  | some extra => src.value ++ "/" ++ extra ++ "/" ++ file
  | none => src.value ++ "/" ++ file

/-- The URL of the detached signature of a source (lines 645-649). -/
def sig_url (src : pkg_src_t) : String :=
  match src.extra_data with
  | some extra => src.value ++ "/" ++ extra ++ "/" ++ "Packages.sig"
  | none => src.value ++ "/" ++ "Packages.sig"

/-- Lines 619-630: inflate the downloaded file into the list file and remove
it.  The assignment `err = 1` is dead: `err` is only tested by an empty `if`. -/
def inflate_list {W : Type} (X : Ext W) (tmp_file_name list_file_name : String)
    (s : State W) : State W :=
  let fi := X.fopen s.conf tmp_file_name "r"
  let s : State W :=
    { conf := fi.2, trace := s.trace ++ [Event.fopen tmp_file_name "r" fi.1] }
  let fo := X.fopen s.conf list_file_name "w"
  let s : State W :=
    { conf := fo.2, trace := s.trace ++ [Event.fopen list_file_name "w" fo.1] }
  let s : State W :=
    if fi.1 && fo.1 then
      { conf := X.unzip s.conf tmp_file_name list_file_name,
        trace := s.trace ++ [Event.unzip tmp_file_name list_file_name] }
    else s
  let s : State W :=
    if fi.1 then
      { conf := X.fclose s.conf tmp_file_name,
        trace := s.trace ++ [Event.fclose tmp_file_name] }
    else s
  let s : State W :=
    if fo.1 then
      { conf := X.fclose s.conf list_file_name,
        trace := s.trace ++ [Event.fclose list_file_name] }
    else s
  { conf := X.unlink s.conf tmp_file_name, trace := s.trace ++ [Event.unlink tmp_file_name] }

/-- Lines 599-634: fetch the list of one source, inflating it when the feed is
compressed.  For a compressed feed the download is given `curl_progress_cb`
and `cb_data`, whose `cb` is the caller's sink (possibly `NULL`); the reports
of the transfer run through `curl_progress_cb` before the download returns.
The result is `none` when one of them calls a `NULL` sink. -/
def fetch_list {W : Type} (X : Ext W) (progress_callback : Bool) (tmp : String)
    (sources_list_count : Int) (sources_done : Int) (list_file_name : String)
    (s : State W) (prev : Int) (src : pkg_src_t) : Option (State W × Int) :=
  let url := list_url src
  if src.gzip then
    let tmp_file_name := tmp ++ "/" ++ src.name ++ ".gz"
    let start_range := Int.tdiv (wrap_int (100 * sources_done)) sources_list_count
    let finish_range :=
      Int.tdiv (wrap_int (100 * wrap_int (sources_done + 1))) sources_list_count
    let cb_data : curl_cb_data :=
      { cb := progress_callback, start_range := start_range, finish_range := finish_range }
    let rc := X.opkg_download s.conf url tmp_file_name true
    match curl_progress_reports cb_data rc.2.2 s prev with
    | none => none
    | some a =>
      let s : State W :=
        { conf := rc.2.1,
          trace := a.1.trace ++
            [Event.download url tmp_file_name (some (start_range, finish_range)) rc.1] }
      if rc.1 = 0 then some (inflate_list X tmp_file_name list_file_name s, a.2)
      else some (s, a.2)
  else
    let rc := X.opkg_download s.conf url list_file_name false
    some ({ conf := rc.2.1,
            trace := s.trace ++ [Event.download url list_file_name none rc.1] }, prev)

/-- Lines 642-676, compiled in when `HAVE_GPGME` is defined: fetch the detached
signature and, when that worked, verify the list against it. -/
def check_signature {W : Type} (X : Ext W) (tmp : String) (list_file_name : String)
    (s : State W) (src : pkg_src_t) : State W :=
  let url := sig_url src
  let tmp_file_name := tmp ++ "/" ++ "Packages.sig"
  let rc := X.opkg_download s.conf url tmp_file_name false
  let s : State W :=
    { conf := rc.2.1, trace := s.trace ++ [Event.download_sig url tmp_file_name rc.1] }
  let s : State W :=
    if rc.1 ≠ 0 then s
    else
      let v := X.opkg_verify_file s.conf list_file_name tmp_file_name
      { conf := v.2, trace := s.trace ++ [Event.verify_file list_file_name tmp_file_name v.1] }
  { conf := X.unlink s.conf tmp_file_name, trace := s.trace ++ [Event.unlink tmp_file_name] }

/-- The body of the `for` loop over `pkg_src_list` in `opkg_update_package_lists`. -/
def update_step {W : Type} (X : Ext W) (progress_callback : Bool) (lists_dir tmp : String)
    (sources_list_count : Int) (l : UpdateLoop W) (src : pkg_src_t) : Option (UpdateLoop W) :=
  let list_file_name := lists_dir ++ "/" ++ src.name
  match fetch_list X progress_callback tmp sources_list_count l.sources_done list_file_name
      l.st l.prev src with
  | none => none
  | some a =>
    let s := if X.have_gpgme then check_signature X tmp list_file_name a.1 src else a.1
    let sources_done := wrap_int (l.sources_done + 1)
    let s := progress progress_callback s
      (Int.tdiv (wrap_int (100 * sources_done)) sources_list_count)
    some { st := s, sources_done := sources_done, prev := a.2 }

/-- The `for` loop over `pkg_src_list`; it stops only when an iteration does
not return. -/
def update_loop {W : Type} (X : Ext W) (progress_callback : Bool) (lists_dir tmp : String)
    (sources_list_count : Int) : List pkg_src_t → UpdateLoop W → Option (UpdateLoop W)
  | [], l => some l
  | src :: rest, l =>
    match update_step X progress_callback lists_dir tmp sources_list_count l src with
    | none => none
    | some l1 => update_loop X progress_callback lists_dir tmp sources_list_count rest l1

/-- Lines 576-692 of `opkg_update_package_lists`: count the sources, run the
loop over them, remove the temporary directory.  The source list is the one
the configuration holds when the loop starts. -/
def update_sources {W : Type} (X : Ext W) (progress_callback : Bool) (lists_dir tmp : String)
    (s : State W) (prev : Int) : Option (UpdateResult W) :=
  let sources := s.conf.pkg_src_list
  let sources_list_count : Int := wrap_int sources.length
  match update_loop X progress_callback lists_dir tmp sources_list_count sources
      { st := s, sources_done := 0, prev := prev } with
  | none => none
  | some l =>
    some { ret := 0,
           st := { conf := X.rmdir l.st.conf tmp, trace := l.st.trace ++ [Event.rmdir tmp] },
           prev := l.prev }

/-- Lines 566-574 onwards: create the temporary directory, then synchronise. -/
def update_with_tmp {W : Type} (X : Ext W) (progress_callback : Bool) (lists_dir : String)
    (s : State W) (prev : Int) : Option (UpdateResult W) :=
  let m := X.mkdtemp s.conf "/tmp/opkg.XXXXXX"
  let s : State W := { conf := m.2, trace := s.trace ++ [Event.mkdtemp m.1.isSome] }
  match m.1 with
  | none => some { ret := 1, st := s, prev := prev }
  | some tmp => update_sources X progress_callback lists_dir tmp s prev

/-- Lines 543-546: the lists directory, `default_dest->lists_dir` when the
operation is restricted to the default destination, else `conf->lists_dir`. -/
def lists_dir_of {W : Type} (c : opkg_conf_t W) : String :=
  if c.restrict_to_default_dest ≠ 0 then c.default_dest_lists_dir else c.lists_dir

/-- `opkg_update_package_lists (opkg, progress_callback, user_data)`; `prev` is
the value the `static int prev` of `curl_progress_cb` has on entry (`-1` in a
fresh process).  The result is `none` when the run does not return because a
`NULL` sink is called. -/
def opkg_update_package_lists {W : Type} (X : Ext W) (s : State W) (progress_callback : Bool)
    (prev : Int) : Option (UpdateResult W) :=
  let s := progress progress_callback s 0
  let lists_dir := lists_dir_of s.conf
  if X.file_is_dir s.conf lists_dir then
    update_with_tmp X progress_callback lists_dir s prev
  else if X.file_exists s.conf lists_dir then some { ret := 1, st := s, prev := prev }
  else
    let rc := X.file_mkdir_hier s.conf lists_dir
    let s : State W := { conf := rc.2, trace := s.trace ++ [Event.mkdir_hier lists_dir rc.1] }
    if rc.1 ≠ 0 then some { ret := 1, st := s, prev := prev }
    else update_with_tmp X progress_callback lists_dir s prev


/-! ## Observations on traces and a concrete environment -/

/-- The configure invocations recorded in a trace, in order: package and code. -/
def configure_calls (t : List Event) : List (Nat × Int) :=
  t.filterMap (fun e => match e with
    | Event.configure p r => some (p, r)
    | _ => none)

/-- The first non-zero code of a list of return codes, `0` when there is none. -/
def first_error : List Int → Int
  | [] => 0
  | r :: rs => if r ≠ 0 then r else first_error rs

/-- A small concrete environment: four records at addresses 0..3, name
matching by equality, lookups that return the first installed match,
configure and upgrade collaborators given by return-code tables, and a
download that fails for the feed `http://feed2` and, when it is given a
progress function, reports an unknown total, then 500 and 1000 of 1000
bytes. -/
def demo_ext (configure_code upgrade_code : Nat → Int) : Ext Unit where
  SF_PREFER := 16
  fnmatch := fun pat n => if pat = n then 0 else 1
  pkg_hash_fetch_available := fun _ => [0, 1, 2, 3]
  pkg_hash_fetch_all_installed := fun c =>
    [0, 1, 2, 3].filter (fun a =>
      (c.pkgs a).state_status = SS_INSTALLED ∨ (c.pkgs a).state_status = SS_UNPACKED)
  pkg_hash_fetch_installed_by_name := fun c n =>
    [0, 1, 2, 3].find? (fun a =>
      ((c.pkgs a).state_status = SS_INSTALLED ∨ (c.pkgs a).state_status = SS_UNPACKED) ∧
        (c.pkgs a).name = n)
  pkg_hash_fetch_installed_by_name_dest := fun c n d =>
    [0, 1, 2, 3].find? (fun a =>
      ((c.pkgs a).state_status = SS_INSTALLED ∨ (c.pkgs a).state_status = SS_UNPACKED) ∧
        (c.pkgs a).name = n ∧ (c.pkgs a).dest = d)
  opkg_configure := fun c a => (configure_code a, c)
  opkg_prepare_url_for_install := fun c _ => (none, c)
  pkg_info_preinstall_check := fun c => c
  opkg_install_by_name := fun c n =>
    match [1, 0, 2, 3].find? (fun a => (c.pkgs a).name = n) with
    | some a => (0, c.modify a (fun p => { p with state_status := SS_UNPACKED }))
    | none => (1, c)
  opkg_install_multi_by_name := fun c _ => (1, c)
  opkg_remove_pkg := fun c q _ =>
    match q with
    | some a => (0, c.modify a (fun p => { p with state_status := SS_NOT_INSTALLED }))
    | none => (1, c)
  opkg_upgrade_pkg := fun c a => (upgrade_code a, c)
  opkg_conf_write_status_files := fun c => c
  pkg_write_changed_filelists := fun c => c
  file_is_dir := fun _ d => decide (d = "/usr/lib/opkg/lists")
  file_exists := fun _ d => decide (d = "/usr/lib/opkg/lists" ∨ d = "/etc/passwd")
  file_mkdir_hier := fun c _ => (0, c)
  mkdtemp := fun c _ => (some "/tmp/opkg.a1b2c3", c)
  opkg_download := fun c url _ with_cb =>
    (if url = "http://feed2/Packages.gz" then 1 else 0, c,
      if with_cb then [(0, 0), (1000, 500), (1000, 1000)] else [])
  fopen := fun c _ _ => (true, c)
  unzip := fun c _ _ => c
  fclose := fun c _ => c
  unlink := fun c _ => c
  opkg_verify_file := fun c _ _ => (0, c)
  rmdir := fun c _ => c
  have_gpgme := false

/-- A configuration over the given record store, with the given restriction
flag and default destination and no sources. -/
def demo_conf (pkgs : Nat → pkg_t) (restrict : Int) (default_dest : Nat) :
    opkg_conf_t Unit where
  pkgs := pkgs
  multiple_providers := 0
  restrict_to_default_dest := restrict
  default_dest := default_dest
  lists_dir := "/usr/lib/opkg/lists"
  default_dest_lists_dir := "/usr/lib/opkg/lists"
  pkg_src_list := []
  world := ()

/-- Unpacked records `foo`, `bar`, `baz` at addresses 0, 1, 2 and `qux`
elsewhere, each with the prefer flag set and a parent outside the available
list. -/
def demo_unpacked : Nat → pkg_t := fun a =>
  { name := if a = 0 then "foo" else if a = 1 then "bar" else if a = 2 then "baz" else "qux",
    state_status := SS_UNPACKED, state_flag := 17, parent := a + 10, dest := 0 }

/-- Two versions of `foo` at addresses 0 and 1, and `bar` elsewhere, none
installed; each record carries the prefer flag. -/
def demo_two_versions : Nat → pkg_t := fun a =>
  { name := if a ≤ 1 then "foo" else "bar",
    state_status := SS_NOT_INSTALLED, state_flag := 16, parent := a + 10, dest := 0 }

/-- The arguments handed to the remove collaborator, in invocation order. -/
def remove_calls (t : List Event) : List (Option Nat) :=
  t.filterMap (fun e => match e with
    | Event.remove q _ _ => some q
    | _ => none)

/-- Two destinations holding an installed `foo` each: address 0 in destination
0, address 1 in destination 1; `bar` elsewhere, not installed. -/
def demo_two_dests : Nat → pkg_t := fun a =>
  { name := if a ≤ 1 then "foo" else "bar",
    state_status := if a ≤ 1 then SS_INSTALLED else SS_NOT_INSTALLED,
    state_flag := 0, parent := a + 10, dest := a }

/-- Only destination 1 holds an installed `foo` (address 1); the record of
`foo` for destination 0 (address 0) is not installed. -/
def demo_other_dest : Nat → pkg_t := fun a =>
  { name := if a ≤ 1 then "foo" else "bar",
    state_status := if a = 1 then SS_INSTALLED else SS_NOT_INSTALLED,
    state_flag := 0, parent := a + 10, dest := a }

/-- The concrete environment with a remove collaborator that fails with code 7
and changes nothing. -/
def demo_ext_remove_fails : Ext Unit :=
  { demo_ext (fun _ => 0) (fun _ => 0) with opkg_remove_pkg := fun c _ _ => (7, c) }

/-- The upgrade invocations recorded in a trace, in order: package and code. -/
def upgrade_calls (t : List Event) : List (Nat × Int) :=
  t.filterMap (fun e => match e with
    | Event.upgrade p r => some (p, r)
    | _ => none)

/-- The values handed to the sink by the macro `progress`, in order: the
reports at the start, at the phase boundaries and at the source boundaries.
The values `curl_progress_cb` hands to the sink during a download are the
separate events `download_progress`. -/
def progress_values (t : List Event) : List Int :=
  t.filterMap (fun e => match e with
    | Event.progress n => some n
    | _ => none)

/-- The URLs of the package-list downloads recorded in a trace, in order
(signature downloads are separate events and are not counted). -/
def download_urls (t : List Event) : List String :=
  t.filterMap (fun e => match e with
    | Event.download url _ _ _ => some url
    | _ => none)

/-- The package-list downloads recorded in a trace, in order: URL, destination
file and the code the download returned. -/
def download_calls (t : List Event) : List (String × String × Int) :=
  t.filterMap (fun e => match e with
    | Event.download url dest _ ret => some (url, dest, ret)
    | _ => none)

/-- The file a package list is downloaded to: the list file itself, or for a
compressed feed the file `tmp/name.gz` that is inflated afterwards. -/
def download_dest (lists_dir tmp : String) (src : pkg_src_t) : String :=
  if src.gzip then tmp ++ "/" ++ src.name ++ ".gz" else lists_dir ++ "/" ++ src.name

/-- The progress values at the start of a run over `n` sources and after each
source: `100 * k / n` for `k = 0, ..., n`. -/
def boundary_progress (n : Nat) : List Int :=
  (List.range (n + 1)).map (fun k => ((100 * k / n : Nat) : Int))

/-- The concrete configuration with the given list of sources. -/
def demo_conf_sources (srcs : List pkg_src_t) : opkg_conf_t Unit :=
  { demo_conf demo_unpacked 0 0 with pkg_src_list := srcs }

/-- Three feeds; the download of the second one fails in `demo_ext`. -/
def demo_sources : List pkg_src_t :=
  [ { name := "base", value := "http://feed1", extra_data := none, gzip := false },
    { name := "extra", value := "http://feed2", extra_data := none, gzip := true },
    { name := "local", value := "file:///feed3", extra_data := some "dists/main", gzip := false } ]

/-! ## Configure-all -/

theorem first_error_snoc (cs : List Int) (r : Int) :
    first_error (cs ++ [r]) = if first_error cs = 0 then r else first_error cs := by
  induction cs with
  | nil => simp [first_error]; intro h; exact h.symm
  | cons c cs ih =>
    by_cases hc : c = 0
    · simp [first_error, hc, ih]
    · simp [first_error, hc]

theorem configure_loop_append {W : Type} (X : Ext W) (pat : Option String)
    (l : ConfigureLoop W) (xs ys : List Nat) :
    configure_loop X pat l (xs ++ ys) = configure_loop X pat (configure_loop X pat l xs) ys := by
  simp [configure_loop, List.foldl_append]

theorem configure_loop_single {W : Type} (X : Ext W) (pat : Option String)
    (l : ConfigureLoop W) (p : Nat) :
    configure_loop X pat l [p] = configure_step X pat l p := rfl

/-- What one loop iteration adds to the configure invocations. -/
theorem configure_step_calls {W : Type} (X : Ext W) (pat : Option String)
    (l : ConfigureLoop W) (p : Nat) :
    configure_calls (configure_step X pat l p).st.trace =
      configure_calls l.st.trace ++
        (if name_filtered X pat (l.st.conf.pkgs p).name = false ∧
            (l.st.conf.pkgs p).state_status = SS_UNPACKED
         then [(p, (X.opkg_configure l.st.conf p).1)] else []) := by
  unfold configure_step
  by_cases hf : name_filtered X pat (l.st.conf.pkgs p).name = true
  · simp [hf]
  · by_cases hu : (l.st.conf.pkgs p).state_status = SS_UNPACKED
    · by_cases hr : (X.opkg_configure l.st.conf p).1 = 0
      · simp [hf, hu, hr, configure_calls, List.filterMap_append]
      · simp [hf, hu, hr, configure_calls, List.filterMap_append]
    · simp [hf, hu]

theorem configure_step_err {W : Type} (X : Ext W) (pat : Option String)
    (l : ConfigureLoop W) (p : Nat)
    (h : l.err = first_error ((configure_calls l.st.trace).map Prod.snd)) :
    (configure_step X pat l p).err =
      first_error ((configure_calls (configure_step X pat l p).st.trace).map Prod.snd) := by
  rw [configure_step_calls]
  unfold configure_step
  by_cases hf : name_filtered X pat (l.st.conf.pkgs p).name = true
  · simp [hf, h]
  · by_cases hu : (l.st.conf.pkgs p).state_status = SS_UNPACKED
    · by_cases hr : (X.opkg_configure l.st.conf p).1 = 0
      · simp only [hf, hu, hr, h]
        simp
        rw [first_error_snoc]
        split <;> simp_all
      · simp [hf, hu, hr, first_error_snoc, h]
    · simp [hf, hu, h]

theorem configure_loop_err {W : Type} (X : Ext W) (pat : Option String) (all : List Nat) :
    ∀ l : ConfigureLoop W,
      l.err = first_error ((configure_calls l.st.trace).map Prod.snd) →
      (configure_loop X pat l all).err =
        first_error ((configure_calls (configure_loop X pat l all).st.trace).map Prod.snd) := by
  induction all with
  | nil => intro l h; simpa [configure_loop] using h
  | cons p ps ih =>
    intro l h
    have := ih (configure_step X pat l p) (configure_step_err X pat l p h)
    simpa [configure_loop] using this

theorem configure_loop_sublist {W : Type} (X : Ext W) (pat : Option String) (all : List Nat) :
    ∀ l : ConfigureLoop W,
      ∃ ps, List.Sublist ps all ∧
        (configure_calls (configure_loop X pat l all).st.trace).map Prod.fst =
          (configure_calls l.st.trace).map Prod.fst ++ ps := by
  induction all with
  | nil => intro l; exact ⟨[], List.Sublist.slnil, by simp [configure_loop]⟩
  | cons p ps ih =>
    intro l
    obtain ⟨qs, hq, he⟩ := ih (configure_step X pat l p)
    have hs := configure_step_calls X pat l p
    by_cases hc : name_filtered X pat (l.st.conf.pkgs p).name = false ∧
            (l.st.conf.pkgs p).state_status = SS_UNPACKED
    · refine ⟨p :: qs, hq.cons₂ p, ?_⟩
      have : configure_loop X pat l (p :: ps) = configure_loop X pat (configure_step X pat l p) ps := rfl
      rw [this, he, hs]
      simp [hc]
    · refine ⟨qs, hq.cons p, ?_⟩
      have : configure_loop X pat l (p :: ps) = configure_loop X pat (configure_step X pat l p) ps := rfl
      rw [this, he, hs]
      simp [hc]

/-- C1. Configure-all is fail-soft and returns the first error: the value
returned is the first non-zero code among the configure invocations (0 when
there is none); the invoked packages form a sublist of the fetched list; and at
every position of the list the visit adds exactly one invocation when the name
passes the filter and the record is `UNPACKED` at that moment, none otherwise,
whatever codes came before, after which the rest of the list is still
processed. -/
theorem configure_packages_fail_soft {W : Type} (X : Ext W) (c : opkg_conf_t W)
    (pkg_name : Option String) :
    (opkg_configure_packages X ⟨c, []⟩ pkg_name).1 =
      first_error
        ((configure_calls (opkg_configure_packages X ⟨c, []⟩ pkg_name).2.trace).map Prod.snd) ∧
    List.Sublist
      ((configure_calls (opkg_configure_packages X ⟨c, []⟩ pkg_name).2.trace).map Prod.fst)
      (X.pkg_hash_fetch_available c) ∧
    ∀ xs p ys, X.pkg_hash_fetch_available c = xs ++ p :: ys →
      configure_calls (configure_loop X pkg_name ⟨⟨c, []⟩, 0⟩ (xs ++ [p])).st.trace =
        configure_calls (configure_loop X pkg_name ⟨⟨c, []⟩, 0⟩ xs).st.trace ++
          (if name_filtered X pkg_name
                ((configure_loop X pkg_name ⟨⟨c, []⟩, 0⟩ xs).st.conf.pkgs p).name = false ∧
              ((configure_loop X pkg_name ⟨⟨c, []⟩, 0⟩ xs).st.conf.pkgs p).state_status
                = SS_UNPACKED
           then [(p, (X.opkg_configure (configure_loop X pkg_name ⟨⟨c, []⟩, 0⟩ xs).st.conf p).1)]
           else []) ∧
      opkg_configure_packages X ⟨c, []⟩ pkg_name =
        ((configure_loop X pkg_name
            (configure_loop X pkg_name ⟨⟨c, []⟩, 0⟩ (xs ++ [p])) ys).err,
         (configure_loop X pkg_name
            (configure_loop X pkg_name ⟨⟨c, []⟩, 0⟩ (xs ++ [p])) ys).st) := by
  refine ⟨?_, ?_, ?_⟩
  · exact configure_loop_err X pkg_name _ ⟨⟨c, []⟩, 0⟩ (by simp [configure_calls, first_error])
  · obtain ⟨ps, hps, he⟩ := configure_loop_sublist X pkg_name (X.pkg_hash_fetch_available c)
      ⟨⟨c, []⟩, 0⟩
    have : (configure_calls (opkg_configure_packages X ⟨c, []⟩ pkg_name).2.trace).map Prod.fst
        = ps := by
      simpa [opkg_configure_packages, configure_calls] using he
    rw [this]; exact hps
  · intro xs p ys hall
    constructor
    · rw [configure_loop_append, configure_loop_single, configure_step_calls]
    · simp only [opkg_configure_packages, hall]
      rw [← configure_loop_append]
      simp

theorem configure_packages_fail_soft_witness :
    (demo_ext (fun a => if a = 1 then 5 else 0) (fun _ => 0)).pkg_hash_fetch_available
        (demo_conf demo_unpacked 0 0) = [0] ++ 1 :: [2, 3] ∧
    configure_calls (configure_loop (demo_ext (fun a => if a = 1 then 5 else 0) (fun _ => 0))
        (some "bar") ⟨⟨demo_conf demo_unpacked 0 0, []⟩, 0⟩ ([0] ++ [1])).st.trace = [(1, 5)] :=
  ⟨by decide,
   ((configure_packages_fail_soft (demo_ext (fun a => if a = 1 then 5 else 0) (fun _ => 0))
      (demo_conf demo_unpacked 0 0) (some "bar")).2.2 [0] 1 [2, 3] (by decide)).1.trans
      (by decide)⟩

theorem clear_bits_testBit (flag mask i : Nat) (h : i < 32) :
    (clear_bits flag mask).testBit i = (flag.testBit i && !mask.testBit i) := by
  have e : (4294967295 : Nat) = 2 ^ 32 - 1 := by norm_num
  unfold clear_bits
  rw [Nat.testBit_and, Nat.testBit_xor, e, Nat.testBit_two_pow_sub_one]
  simp [h]

/-- C2. Per-package configure transition.  Let a visit of `opkg_configure_packages`
reach package `p` with a name that passes the filter and status `UNPACKED`, and
let `rc` be what the configure collaborator returns there.  If the code is 0,
then right after the iteration `p` is `INSTALLED`, its parent record is
`INSTALLED`, every bit of `SF_PREFER` is cleared in the state flag of `p` and
every other bit is as the collaborator left it, and no other record is
touched.  If the code is non-zero the iteration changes nothing of the
configuration: with a collaborator that leaves the records alone, `p` is still
`UNPACKED` and its flag and its parent's status are unmodified. -/
theorem configure_transition {W : Type} (X : Ext W) (c : opkg_conf_t W)
    (pkg_name : Option String) (xs ys : List Nat) (p : Nat)
    (hall : X.pkg_hash_fetch_available c = xs ++ p :: ys)
    (hname : name_filtered X pkg_name
      ((configure_loop X pkg_name ⟨⟨c, []⟩, 0⟩ xs).st.conf.pkgs p).name = false)
    (hunp : ((configure_loop X pkg_name ⟨⟨c, []⟩, 0⟩ xs).st.conf.pkgs p).state_status
      = SS_UNPACKED) :
    ((X.opkg_configure (configure_loop X pkg_name ⟨⟨c, []⟩, 0⟩ xs).st.conf p).1 = 0 →
      ((configure_loop X pkg_name ⟨⟨c, []⟩, 0⟩ (xs ++ [p])).st.conf.pkgs p).state_status
        = SS_INSTALLED ∧
      ((configure_loop X pkg_name ⟨⟨c, []⟩, 0⟩ (xs ++ [p])).st.conf.pkgs
        ((configure_loop X pkg_name ⟨⟨c, []⟩, 0⟩ (xs ++ [p])).st.conf.pkgs p).parent).state_status
        = SS_INSTALLED ∧
      ((configure_loop X pkg_name ⟨⟨c, []⟩, 0⟩ (xs ++ [p])).st.conf.pkgs p).parent =
        ((X.opkg_configure (configure_loop X pkg_name ⟨⟨c, []⟩, 0⟩ xs).st.conf p).2.pkgs p).parent ∧
      (∀ i, i < 32 →
        ((configure_loop X pkg_name ⟨⟨c, []⟩, 0⟩ (xs ++ [p])).st.conf.pkgs p).state_flag.testBit i =
          (((X.opkg_configure (configure_loop X pkg_name ⟨⟨c, []⟩, 0⟩ xs).st.conf p).2.pkgs
              p).state_flag.testBit i && !X.SF_PREFER.testBit i)) ∧
      (∀ q, q ≠ p →
        q ≠ ((X.opkg_configure (configure_loop X pkg_name ⟨⟨c, []⟩, 0⟩ xs).st.conf p).2.pkgs
              p).parent →
        (configure_loop X pkg_name ⟨⟨c, []⟩, 0⟩ (xs ++ [p])).st.conf.pkgs q =
          (X.opkg_configure (configure_loop X pkg_name ⟨⟨c, []⟩, 0⟩ xs).st.conf p).2.pkgs q)) ∧
    ((X.opkg_configure (configure_loop X pkg_name ⟨⟨c, []⟩, 0⟩ xs).st.conf p).1 ≠ 0 →
      (configure_loop X pkg_name ⟨⟨c, []⟩, 0⟩ (xs ++ [p])).st.conf =
        (X.opkg_configure (configure_loop X pkg_name ⟨⟨c, []⟩, 0⟩ xs).st.conf p).2 ∧
      ((X.opkg_configure (configure_loop X pkg_name ⟨⟨c, []⟩, 0⟩ xs).st.conf p).2.pkgs =
          (configure_loop X pkg_name ⟨⟨c, []⟩, 0⟩ xs).st.conf.pkgs →
        ((configure_loop X pkg_name ⟨⟨c, []⟩, 0⟩ (xs ++ [p])).st.conf.pkgs p).state_status
          = SS_UNPACKED ∧
        (configure_loop X pkg_name ⟨⟨c, []⟩, 0⟩ (xs ++ [p])).st.conf.pkgs =
          (configure_loop X pkg_name ⟨⟨c, []⟩, 0⟩ xs).st.conf.pkgs)) := by
  have _ := hall
  rw [configure_loop_append, configure_loop_single]
  generalize configure_loop X pkg_name ⟨⟨c, []⟩, 0⟩ xs = l at hname hunp ⊢
  unfold configure_step
  constructor
  · intro hr
    simp only [hname, hunp, hr, opkg_conf_t.modify]
    by_cases hpar : ((X.opkg_configure l.st.conf p).2.pkgs p).parent = p
    · refine ⟨by simp [hpar], by simp [hpar], by simp [hpar], ?_, ?_⟩
      · intro i hi
        simp [hpar, clear_bits_testBit _ _ _ hi]
      · intro q hq hq2
        simp [hq, hq2]
    · have hpar2 : ¬ p = ((X.opkg_configure l.st.conf p).2.pkgs p).parent := fun h => hpar h.symm
      refine ⟨by simp [hpar, hpar2], by simp [hpar, hpar2], by simp [hpar, hpar2], ?_, ?_⟩
      · intro i hi
        simp [hpar, hpar2, clear_bits_testBit _ _ _ hi]
      · intro q hq hq2
        simp [hq, hq2]
  · intro hr
    simp only [hname, hunp, hr]
    refine ⟨by simp, ?_⟩
    intro hsame
    simp [hsame, hunp]

theorem configure_transition_witness :
    (demo_ext (fun a => if a = 0 then 5 else 0) (fun _ => 0)).pkg_hash_fetch_available
        (demo_conf demo_unpacked 0 0) = [0] ++ 1 :: [2, 3] ∧
    name_filtered (demo_ext (fun a => if a = 0 then 5 else 0) (fun _ => 0)) none
      ((configure_loop (demo_ext (fun a => if a = 0 then 5 else 0) (fun _ => 0)) none
        ⟨⟨demo_conf demo_unpacked 0 0, []⟩, 0⟩ [0]).st.conf.pkgs 1).name = false ∧
    ((configure_loop (demo_ext (fun a => if a = 0 then 5 else 0) (fun _ => 0)) none
        ⟨⟨demo_conf demo_unpacked 0 0, []⟩, 0⟩ [0]).st.conf.pkgs 1).state_status = SS_UNPACKED ∧
    ((configure_loop (demo_ext (fun a => if a = 0 then 5 else 0) (fun _ => 0)) none
        ⟨⟨demo_conf demo_unpacked 0 0, []⟩, 0⟩ ([0] ++ [1])).st.conf.pkgs 1).state_status
      = SS_INSTALLED :=
  ⟨by decide, by decide, by decide,
   ((configure_transition (demo_ext (fun a => if a = 0 then 5 else 0) (fun _ => 0))
      (demo_conf demo_unpacked 0 0) none [0] [2, 3] 1 (by decide) (by decide) (by decide)).1
      (by decide)).1⟩

/-! ## Install -/

/-- The record store after one loop iteration, for a configure collaborator
that leaves the records alone. -/
theorem configure_step_pkgs {W : Type} (X : Ext W) (pat : Option String)
    (hcfg : ∀ c q, (X.opkg_configure c q).2.pkgs = c.pkgs)
    (l : ConfigureLoop W) (q a : Nat) :
    ((configure_step X pat l q).st.conf.pkgs a) =
      if name_filtered X pat (l.st.conf.pkgs q).name = false ∧
          (l.st.conf.pkgs q).state_status = SS_UNPACKED ∧
          (X.opkg_configure l.st.conf q).1 = 0 then
        (if a = q then
          { l.st.conf.pkgs q with
            state_status := SS_INSTALLED,
            state_flag := clear_bits (l.st.conf.pkgs q).state_flag X.SF_PREFER }
        else if a = (l.st.conf.pkgs q).parent then
          { l.st.conf.pkgs a with state_status := SS_INSTALLED }
        else l.st.conf.pkgs a)
      else l.st.conf.pkgs a := by
  unfold configure_step
  by_cases hf : name_filtered X pat (l.st.conf.pkgs q).name = true
  · simp [hf]
  · by_cases hu : (l.st.conf.pkgs q).state_status = SS_UNPACKED
    · by_cases hr : (X.opkg_configure l.st.conf q).1 = 0
      · simp only [hf, hu, hr, opkg_conf_t.modify, hcfg]
        by_cases haq : a = q
        · subst haq
          by_cases hpar : (l.st.conf.pkgs a).parent = a
          · simp [hpar]
          · have hpar2 : ¬ a = (l.st.conf.pkgs a).parent := fun h => hpar h.symm
            simp [hpar, hpar2]
        · by_cases hap : a = (l.st.conf.pkgs q).parent
          · subst hap
            have hqa : ¬ q = (l.st.conf.pkgs q).parent := fun h => haq h.symm
            simp [haq, hqa]
          · simp [haq, hap]
      · simp [hf, hu, hr, hcfg]
    · simp [hf, hu]

/-- The error variable after one iteration is 0 only if it was 0 before and the
iteration did not see a non-zero code. -/
theorem configure_step_err_zero {W : Type} (X : Ext W) (pat : Option String)
    (l : ConfigureLoop W) (q : Nat) (h : (configure_step X pat l q).err = 0) :
    l.err = 0 ∧
      (name_filtered X pat (l.st.conf.pkgs q).name = false →
        (l.st.conf.pkgs q).state_status = SS_UNPACKED →
        (X.opkg_configure l.st.conf q).1 = 0) := by
  unfold configure_step at h
  by_cases hf : name_filtered X pat (l.st.conf.pkgs q).name = true
  · simp [hf] at h ⊢; exact h
  · by_cases hu : (l.st.conf.pkgs q).state_status = SS_UNPACKED
    · by_cases hr : (X.opkg_configure l.st.conf q).1 = 0
      · simp [hf, hu, hr] at h ⊢; exact h
      · simp only [hf, hu, hr] at h
        by_cases he : l.err = 0
        · simp [he] at h; exact absurd h hr
        · simp [he] at h
    · simp [hf, hu] at h ⊢
      exact h

theorem configure_loop_err_zero {W : Type} (X : Ext W) (pat : Option String) (xs : List Nat) :
    ∀ l : ConfigureLoop W, (configure_loop X pat l xs).err = 0 → l.err = 0 := by
  induction xs with
  | nil => intro l h; simpa [configure_loop] using h
  | cons q qs ih =>
    intro l h
    exact (configure_step_err_zero X pat l q (ih (configure_step X pat l q) h)).1

theorem configure_step_parent {W : Type} (X : Ext W) (pat : Option String)
    (hcfg : ∀ c q, (X.opkg_configure c q).2.pkgs = c.pkgs)
    (l : ConfigureLoop W) (q a : Nat) :
    ((configure_step X pat l q).st.conf.pkgs a).parent = (l.st.conf.pkgs a).parent := by
  rw [configure_step_pkgs X pat hcfg]
  split
  · split
    · next h => rw [h]
    · split <;> rfl
  · rfl

theorem configure_step_installed {W : Type} (X : Ext W) (pat : Option String)
    (hcfg : ∀ c q, (X.opkg_configure c q).2.pkgs = c.pkgs)
    (l : ConfigureLoop W) (q a : Nat)
    (h : (l.st.conf.pkgs a).state_status = SS_INSTALLED) :
    ((configure_step X pat l q).st.conf.pkgs a).state_status = SS_INSTALLED := by
  rw [configure_step_pkgs X pat hcfg]
  split
  · split
    · rfl
    · split
      · rfl
      · exact h
  · exact h

theorem configure_step_cleared {W : Type} (X : Ext W) (pat : Option String)
    (hcfg : ∀ c q, (X.opkg_configure c q).2.pkgs = c.pkgs)
    (l : ConfigureLoop W) (q a : Nat)
    (h : ∀ i, i < 32 → X.SF_PREFER.testBit i = true →
      (l.st.conf.pkgs a).state_flag.testBit i = false) :
    ∀ i, i < 32 → X.SF_PREFER.testBit i = true →
      ((configure_step X pat l q).st.conf.pkgs a).state_flag.testBit i = false := by
  intro i hi hP
  rw [configure_step_pkgs X pat hcfg]
  split
  · split
    · simp [clear_bits_testBit _ _ _ hi, hP]
    · split
      · exact h i hi hP
      · exact h i hi hP
  · exact h i hi hP

theorem configure_loop_installed {W : Type} (X : Ext W) (pat : Option String)
    (hcfg : ∀ c q, (X.opkg_configure c q).2.pkgs = c.pkgs) (a : Nat) (xs : List Nat) :
    ∀ l : ConfigureLoop W, (l.st.conf.pkgs a).state_status = SS_INSTALLED →
      ((configure_loop X pat l xs).st.conf.pkgs a).state_status = SS_INSTALLED := by
  induction xs with
  | nil => intro l h; simpa [configure_loop] using h
  | cons q qs ih =>
    intro l h
    exact ih (configure_step X pat l q) (configure_step_installed X pat hcfg l q a h)

theorem configure_loop_cleared {W : Type} (X : Ext W) (pat : Option String)
    (hcfg : ∀ c q, (X.opkg_configure c q).2.pkgs = c.pkgs) (a : Nat) (xs : List Nat) :
    ∀ l : ConfigureLoop W,
      (∀ i, i < 32 → X.SF_PREFER.testBit i = true →
        (l.st.conf.pkgs a).state_flag.testBit i = false) →
      ∀ i, i < 32 → X.SF_PREFER.testBit i = true →
        ((configure_loop X pat l xs).st.conf.pkgs a).state_flag.testBit i = false := by
  induction xs with
  | nil => intro l h; simpa [configure_loop] using h
  | cons q qs ih =>
    intro l h
    exact ih (configure_step X pat l q) (configure_step_cleared X pat hcfg l q a h)

/-- A listed package that is `UNPACKED` ends `INSTALLED` when the loop finishes
with `err = 0`. -/
theorem configure_loop_installs {W : Type} (X : Ext W)
    (hcfg : ∀ c q, (X.opkg_configure c q).2.pkgs = c.pkgs) (p : Nat) (xs : List Nat) :
    ∀ l : ConfigureLoop W, (configure_loop X none l xs).err = 0 → p ∈ xs →
      (l.st.conf.pkgs p).state_status = SS_UNPACKED →
      ((configure_loop X none l xs).st.conf.pkgs p).state_status = SS_INSTALLED := by
  induction xs with
  | nil => intro l _ hmem; simp at hmem
  | cons q qs ih =>
    intro l herr hmem hunp
    have hloop : configure_loop X none l (q :: qs) =
        configure_loop X none (configure_step X none l q) qs := rfl
    rw [hloop] at herr ⊢
    have hstep := configure_step_err_zero X none l q (configure_loop_err_zero X none qs _ herr)
    by_cases hq : p = q
    · subst hq
      apply configure_loop_installed X none hcfg
      rw [configure_step_pkgs X none hcfg]
      have hr := hstep.2 (by simp [name_filtered]) hunp
      simp [name_filtered, hunp, hr]
    · have hmem2 : p ∈ qs := by
        rcases List.mem_cons.mp hmem with h | h
        · exact absurd h hq
        · exact h
      by_cases hst : ((configure_step X none l q).st.conf.pkgs p).state_status = SS_UNPACKED
      · exact ih _ herr hmem2 hst
      · apply configure_loop_installed X none hcfg
        rw [configure_step_pkgs X none hcfg] at hst ⊢
        split
        · simp only [hq, if_false]
          split
          · rfl
          · next h1 h2 =>
            simp [h1, hq, h2] at hst
            exact absurd hunp hst
        · next h1 =>
          simp [h1] at hst
          exact absurd hunp hst

/-- A listed package that is `UNPACKED` and is nobody's parent has the prefer
bits cleared when the loop finishes with `err = 0`. -/
theorem configure_loop_clears {W : Type} (X : Ext W)
    (hcfg : ∀ c q, (X.opkg_configure c q).2.pkgs = c.pkgs) (p : Nat) (xs : List Nat) :
    ∀ l : ConfigureLoop W, (configure_loop X none l xs).err = 0 → p ∈ xs →
      (l.st.conf.pkgs p).state_status = SS_UNPACKED →
      (∀ q ∈ xs, (l.st.conf.pkgs q).parent ≠ p) →
      ∀ i, i < 32 → X.SF_PREFER.testBit i = true →
        ((configure_loop X none l xs).st.conf.pkgs p).state_flag.testBit i = false := by
  induction xs with
  | nil => intro l _ hmem; simp at hmem
  | cons q qs ih =>
    intro l herr hmem hunp hpar
    have hloop : configure_loop X none l (q :: qs) =
        configure_loop X none (configure_step X none l q) qs := rfl
    rw [hloop] at herr ⊢
    have hstep := configure_step_err_zero X none l q (configure_loop_err_zero X none qs _ herr)
    by_cases hq : p = q
    · subst hq
      apply configure_loop_cleared X none hcfg
      intro i hi hP
      rw [configure_step_pkgs X none hcfg]
      have hr := hstep.2 (by simp [name_filtered]) hunp
      simp [name_filtered, hunp, hr, clear_bits_testBit _ _ _ hi, hP]
    · have hmem2 : p ∈ qs := by
        rcases List.mem_cons.mp hmem with h | h
        · exact absurd h hq
        · exact h
      have hpq : p ≠ (l.st.conf.pkgs q).parent := fun h => hpar q (List.mem_cons_self q qs) h.symm
      have hsame : (configure_step X none l q).st.conf.pkgs p = l.st.conf.pkgs p := by
        rw [configure_step_pkgs X none hcfg]
        simp [hq, hpq]
      apply ih _ herr hmem2
      · rw [hsame]; exact hunp
      · intro r hr
        rw [configure_step_parent X none hcfg]
        exact hpar r (List.mem_cons_of_mem q hr)

theorem progress_conf {W : Type} (cb : Bool) (s : State W) (n : Int) :
    (progress cb s n).conf = s.conf := by
  unfold progress State.emit
  split <;> rfl

theorem write_out_pkgs {W : Type} (X : Ext W)
    (hws : ∀ c, (X.opkg_conf_write_status_files c).pkgs = c.pkgs)
    (hwf : ∀ c, (X.pkg_write_changed_filelists c).pkgs = c.pkgs) (s : State W) :
    (write_out X s).conf.pkgs = s.conf.pkgs := by
  simp [write_out, hws, hwf]

/-- C3, as amended.  Let the configure and persistence collaborators leave the
package records alone, and let `p` be a known package that is `UNPACKED` when
the delegated unpack of `opkg_install_package` has returned.  If the install
returns 0 then `p` is `INSTALLED` afterwards, and, when no known package has
`p` as its parent record, no bit of `SF_PREFER` is set in its state flag. -/
theorem install_success_installed {W : Type} (X : Ext W) (s : State W)
    (package_name : String) (progress_callback : Bool) (p : Nat)
    (hcfg : ∀ c q, (X.opkg_configure c q).2.pkgs = c.pkgs)
    (hws : ∀ c, (X.opkg_conf_write_status_files c).pkgs = c.pkgs)
    (hwf : ∀ c, (X.pkg_write_changed_filelists c).pkgs = c.pkgs)
    (hmem : p ∈ X.pkg_hash_fetch_available
      (install_unpack_phase X s package_name progress_callback).2.conf)
    (hunp : ((install_unpack_phase X s package_name progress_callback).2.conf.pkgs
      p).state_status = SS_UNPACKED)
    (hok : (opkg_install_package X s package_name progress_callback).1 = 0) :
    ((opkg_install_package X s package_name progress_callback).2.conf.pkgs p).state_status
      = SS_INSTALLED ∧
    ((∀ q ∈ X.pkg_hash_fetch_available
          (install_unpack_phase X s package_name progress_callback).2.conf,
        ((install_unpack_phase X s package_name progress_callback).2.conf.pkgs q).parent ≠ p) →
      ∀ i, i < 32 → X.SF_PREFER.testBit i = true →
        ((opkg_install_package X s package_name progress_callback).2.conf.pkgs
          p).state_flag.testBit i = false) := by
  unfold opkg_install_package at hok ⊢
  generalize install_unpack_phase X s package_name progress_callback = u at hmem hunp hok ⊢
  by_cases hu : u.1 = 0
  · simp only [hu, ne_eq, not_true_eq_false, if_false] at hok ⊢
    by_cases hc : (opkg_configure_packages X (progress progress_callback u.2 75) none).1 = 0
    · simp only [hc, ne_eq, not_true_eq_false, if_false, progress_conf]
      rw [write_out_pkgs X hws hwf]
      simp only [opkg_configure_packages, progress_conf] at hc ⊢
      constructor
      · exact configure_loop_installs X hcfg p _ _ hc hmem (by simpa [progress_conf] using hunp)
      · intro hpar
        exact configure_loop_clears X hcfg p _ _ hc hmem (by simpa [progress_conf] using hunp)
          (by simpa [progress_conf] using hpar)
    · simp [hc] at hok
  · simp [hu] at hok

theorem install_success_installed_witness :
    (1 ∈ (demo_ext (fun _ => 0) (fun _ => 0)).pkg_hash_fetch_available
      (install_unpack_phase (demo_ext (fun _ => 0) (fun _ => 0))
        ⟨demo_conf demo_two_versions 0 0, []⟩ "foo" true).2.conf) ∧
    ((install_unpack_phase (demo_ext (fun _ => 0) (fun _ => 0))
        ⟨demo_conf demo_two_versions 0 0, []⟩ "foo" true).2.conf.pkgs 1).state_status
      = SS_UNPACKED ∧
    (opkg_install_package (demo_ext (fun _ => 0) (fun _ => 0))
        ⟨demo_conf demo_two_versions 0 0, []⟩ "foo" true).1 = 0 ∧
    ((opkg_install_package (demo_ext (fun _ => 0) (fun _ => 0))
        ⟨demo_conf demo_two_versions 0 0, []⟩ "foo" true).2.conf.pkgs 1).state_status
      = SS_INSTALLED :=
  ⟨by decide, by decide, by decide,
   (install_success_installed (demo_ext (fun _ => 0) (fun _ => 0))
      ⟨demo_conf demo_two_versions 0 0, []⟩ "foo" true 1 (fun _ _ => rfl) (fun _ => rfl)
      (fun _ => rfl) (by decide) (by decide) (by decide)).1⟩

/-- C3 fails as stated: with two records named `foo`, an install of `foo`
that unpacks the record at address 1 returns 0 and leaves the record at
address 0, which has the same name, `NOT_INSTALLED`. -/
theorem install_success_counterexample :
    (demo_two_versions 0).name = "foo" ∧
    (opkg_install_package (demo_ext (fun _ => 0) (fun _ => 0))
        ⟨demo_conf demo_two_versions 0 0, []⟩ "foo" true).1 = 0 ∧
    ((opkg_install_package (demo_ext (fun _ => 0) (fun _ => 0))
        ⟨demo_conf demo_two_versions 0 0, []⟩ "foo" true).2.conf.pkgs 0).state_status
      = SS_NOT_INSTALLED ∧
    ¬ (((opkg_install_package (demo_ext (fun _ => 0) (fun _ => 0))
        ⟨demo_conf demo_two_versions 0 0, []⟩ "foo" true).2.conf.pkgs 0).state_status
      = SS_INSTALLED ∧
      ∀ i, i < 32 → (demo_ext (fun _ => 0) (fun _ => 0)).SF_PREFER.testBit i = true →
        ((opkg_install_package (demo_ext (fun _ => 0) (fun _ => 0))
          ⟨demo_conf demo_two_versions 0 0, []⟩ "foo" true).2.conf.pkgs 0).state_flag.testBit i
          = false) := by
  refine ⟨by decide, by decide, by decide, ?_⟩
  intro h
  exact absurd h.1 (by decide)

/-! ## Remove -/

/-- C4. Remove fails before any mutation when the package is not installed:
when the installed-by-name lookup (made after the pre-removal check) finds no
record, or a record that is `NOT_INSTALLED`, `opkg_remove_package` returns 1,
the only collaborator invoked is the pre-removal check (no remove call, no
persistence call), and the configuration is exactly what that check left, so
no record changes when the check changes none. -/
theorem remove_not_installed {W : Type} (X : Ext W) (c : opkg_conf_t W)
    (package_name : String) (progress_callback : Bool)
    (h : X.pkg_hash_fetch_installed_by_name (X.pkg_info_preinstall_check c) package_name = none ∨
      ∃ pkg, X.pkg_hash_fetch_installed_by_name (X.pkg_info_preinstall_check c) package_name
          = some pkg ∧
        ((X.pkg_info_preinstall_check c).pkgs pkg).state_status = SS_NOT_INSTALLED) :
    (opkg_remove_package X ⟨c, []⟩ package_name progress_callback).1 = 1 ∧
    (opkg_remove_package X ⟨c, []⟩ package_name progress_callback).2.trace =
      (if progress_callback then [Event.progress 0] else []) ++ [Event.preinstall_check] ++
        (if progress_callback then [Event.progress 25] else []) ∧
    (opkg_remove_package X ⟨c, []⟩ package_name progress_callback).2.conf =
      X.pkg_info_preinstall_check c ∧
    ((X.pkg_info_preinstall_check c).pkgs = c.pkgs →
      (opkg_remove_package X ⟨c, []⟩ package_name progress_callback).2.conf.pkgs = c.pkgs) := by
  unfold opkg_remove_package
  simp only [progress_conf]
  rcases h with h | ⟨pkg, h, hst⟩
  · simp only [h]
    cases progress_callback <;> simp [progress, State.emit]
  · simp only [h, hst, if_true]
    cases progress_callback <;> simp [progress, State.emit]

theorem remove_not_installed_witness :
    ((demo_ext (fun _ => 0) (fun _ => 0)).pkg_hash_fetch_installed_by_name
        ((demo_ext (fun _ => 0) (fun _ => 0)).pkg_info_preinstall_check
          (demo_conf demo_two_dests 0 0)) "bar" = none ∨
      ∃ pkg, (demo_ext (fun _ => 0) (fun _ => 0)).pkg_hash_fetch_installed_by_name
          ((demo_ext (fun _ => 0) (fun _ => 0)).pkg_info_preinstall_check
            (demo_conf demo_two_dests 0 0)) "bar" = some pkg ∧
        (((demo_ext (fun _ => 0) (fun _ => 0)).pkg_info_preinstall_check
          (demo_conf demo_two_dests 0 0)).pkgs pkg).state_status = SS_NOT_INSTALLED) ∧
    (opkg_remove_package (demo_ext (fun _ => 0) (fun _ => 0))
      ⟨demo_conf demo_two_dests 0 0, []⟩ "bar" true).1 = 1 :=
  ⟨Or.inl (by decide),
   (remove_not_installed (demo_ext (fun _ => 0) (fun _ => 0)) (demo_conf demo_two_dests 0 0)
      "bar" true (Or.inl (by decide))).1⟩

theorem write_out_record {W : Type} (X : Ext W) (b : Nat)
    (hws : ∀ c, (X.opkg_conf_write_status_files c).pkgs b = c.pkgs b)
    (hwf : ∀ c, (X.pkg_write_changed_filelists c).pkgs b = c.pkgs b) (s : State W) :
    (write_out X s).conf.pkgs b = s.conf.pkgs b := by
  simp [write_out, hws, hwf]

/-- C5. Destination scoping of remove.  Let the operation be restricted to the
default destination, let the name lookup find an installed record of the
requested name, and let the default destination hold the record `a` of that
name.  Then the remove collaborator is invoked exactly once, with the record
the destination-scoped lookup returns for the name and the default destination,
namely `a`.  A record `b` of another destination is not that record, and when
the collaborators only change the record they are handed, the whole record `b`
(so its `state_status` and `state_flag`) is the same after the call as
before. -/
theorem remove_destination_scoped {W : Type} (X : Ext W) (c : opkg_conf_t W)
    (package_name : String) (progress_callback : Bool) (pkg a b : Nat)
    (hrestrict : (X.pkg_info_preinstall_check c).restrict_to_default_dest ≠ 0)
    (hlook : X.pkg_hash_fetch_installed_by_name (X.pkg_info_preinstall_check c) package_name
      = some pkg)
    (hinst : ((X.pkg_info_preinstall_check c).pkgs pkg).state_status ≠ SS_NOT_INSTALLED)
    (hname : ((X.pkg_info_preinstall_check c).pkgs pkg).name = package_name)
    (hA : X.pkg_hash_fetch_installed_by_name_dest (X.pkg_info_preinstall_check c) package_name
      (X.pkg_info_preinstall_check c).default_dest = some a)
    (hAdest : ((X.pkg_info_preinstall_check c).pkgs a).dest =
      (X.pkg_info_preinstall_check c).default_dest)
    (hBdest : ((X.pkg_info_preinstall_check c).pkgs b).dest ≠
      (X.pkg_info_preinstall_check c).default_dest) :
    remove_calls (opkg_remove_package X ⟨c, []⟩ package_name progress_callback).2.trace =
      [X.pkg_hash_fetch_installed_by_name_dest (X.pkg_info_preinstall_check c) package_name
        (X.pkg_info_preinstall_check c).default_dest] ∧
    remove_calls (opkg_remove_package X ⟨c, []⟩ package_name progress_callback).2.trace
      = [some a] ∧
    a ≠ b ∧
    ((X.pkg_info_preinstall_check c).pkgs b = c.pkgs b →
      (∀ c1 q purge, q ≠ some b → (X.opkg_remove_pkg c1 q purge).2.pkgs b = c1.pkgs b) →
      (∀ c1, (X.opkg_conf_write_status_files c1).pkgs b = c1.pkgs b) →
      (∀ c1, (X.pkg_write_changed_filelists c1).pkgs b = c1.pkgs b) →
      (opkg_remove_package X ⟨c, []⟩ package_name progress_callback).2.conf.pkgs b
        = c.pkgs b) := by
  have hab : a ≠ b := by
    intro h
    rw [h] at hAdest
    exact hBdest hAdest
  unfold opkg_remove_package
  simp only [progress_conf, hlook, hinst, hrestrict, hname, hA, if_false, ne_eq,
    not_false_eq_true, if_true]
  refine ⟨?_, ?_, hab, ?_⟩
  · cases progress_callback <;>
      simp [remove_calls, progress, State.emit, write_out, List.filterMap_append]
  · cases progress_callback <;>
      simp [remove_calls, progress, State.emit, write_out, List.filterMap_append]
  · intro hpre hrem hws hwf
    rw [write_out_record X b hws hwf]
    simp only []
    rw [hrem _ _ _ (by simpa using hab), hpre]

theorem remove_destination_scoped_witness :
    ((demo_ext (fun _ => 0) (fun _ => 0)).pkg_info_preinstall_check
        (demo_conf demo_two_dests 1 1)).restrict_to_default_dest ≠ 0 ∧
    (demo_ext (fun _ => 0) (fun _ => 0)).pkg_hash_fetch_installed_by_name
      ((demo_ext (fun _ => 0) (fun _ => 0)).pkg_info_preinstall_check
        (demo_conf demo_two_dests 1 1)) "foo" = some 0 ∧
    remove_calls (opkg_remove_package (demo_ext (fun _ => 0) (fun _ => 0))
      ⟨demo_conf demo_two_dests 1 1, []⟩ "foo" true).2.trace = [some 1] ∧
    (opkg_remove_package (demo_ext (fun _ => 0) (fun _ => 0))
      ⟨demo_conf demo_two_dests 1 1, []⟩ "foo" true).2.conf.pkgs 0 = demo_two_dests 0 :=
  ⟨by decide, by decide,
   (remove_destination_scoped (demo_ext (fun _ => 0) (fun _ => 0)) (demo_conf demo_two_dests 1 1)
      "foo" true 0 1 0 (by decide) (by decide) (by decide) (by decide) (by decide) (by decide)
      (by decide)).2.1,
   (remove_destination_scoped (demo_ext (fun _ => 0) (fun _ => 0)) (demo_conf demo_two_dests 1 1)
      "foo" true 0 1 0 (by decide) (by decide) (by decide) (by decide) (by decide) (by decide)
      (by decide)).2.2.2 rfl
      (by
        intro c1 q purge hq
        cases q with
        | none => rfl
        | some r =>
          have hr : ¬ (0 : Nat) = r := fun h => hq (by rw [h])
          simp [demo_ext, opkg_conf_t.modify, hr])
      (fun _ => rfl) (fun _ => rfl)⟩

/-- C6, the failing input evaluated.  The operation is restricted to
destination 0, which holds no installed `foo`; destination 1 does.  The
unscoped lookup passes the not-installed check, the destination-scoped lookup
returns no record, the remove collaborator is invoked with that null record
and `opkg_remove_package` returns 0.  On the same input `opkg_upgrade_package`,
which checks the scoped lookup, returns 1. -/
theorem remove_restricted_passes_null :
    (demo_conf demo_other_dest 1 0).restrict_to_default_dest ≠ 0 ∧
    (demo_ext (fun _ => 0) (fun _ => 0)).pkg_hash_fetch_installed_by_name_dest
      (demo_conf demo_other_dest 1 0) "foo" 0 = none ∧
    (opkg_remove_package (demo_ext (fun _ => 0) (fun _ => 0))
      ⟨demo_conf demo_other_dest 1 0, []⟩ "foo" true).1 = 0 ∧
    remove_calls (opkg_remove_package (demo_ext (fun _ => 0) (fun _ => 0))
      ⟨demo_conf demo_other_dest 1 0, []⟩ "foo" true).2.trace = [none] ∧
    (opkg_upgrade_package (demo_ext (fun _ => 0) (fun _ => 0))
      ⟨demo_conf demo_other_dest 1 0, []⟩ "foo" true).1 = 1 := by
  refine ⟨by decide, by decide, by decide, by decide, by decide⟩

/-! ## Upgrade -/

/-- C7, the failing input evaluated.  Two installed packages, the upgrade
collaborator returns 1 for the first and -1 for the second: both are invoked,
the sum `err` is 0, and `opkg_upgrade_all` returns 0. -/
theorem upgrade_all_codes_cancel :
    upgrade_calls (opkg_upgrade_all (demo_ext (fun _ => 0) (fun a => if a = 0 then 1 else -1))
      ⟨demo_conf demo_two_dests 0 0, []⟩ true).2.trace = [(0, 1), (1, -1)] ∧
    (opkg_upgrade_all (demo_ext (fun _ => 0) (fun a => if a = 0 then 1 else -1))
      ⟨demo_conf demo_two_dests 0 0, []⟩ true).1 = 0 := by
  refine ⟨by decide, by decide⟩

/-- C8, the failing inputs evaluated.  `opkg_upgrade_package` returns 0 when
the upgrade collaborator returned 3, and when the configure pass that follows
returned 5; `opkg_remove_package` returns 0 when the remove collaborator
returned 7. -/
theorem upgrade_remove_drop_codes :
    upgrade_calls (opkg_upgrade_package (demo_ext (fun _ => 0) (fun _ => 3))
      ⟨demo_conf demo_two_dests 0 0, []⟩ "foo" true).2.trace = [(0, 3)] ∧
    (opkg_upgrade_package (demo_ext (fun _ => 0) (fun _ => 3))
      ⟨demo_conf demo_two_dests 0 0, []⟩ "foo" true).1 = 0 ∧
    (opkg_configure_packages (demo_ext (fun _ => 5) (fun _ => 0))
      ⟨demo_conf demo_unpacked 0 0, []⟩ none).1 = 5 ∧
    (opkg_upgrade_package (demo_ext (fun _ => 5) (fun _ => 0))
      ⟨demo_conf demo_unpacked 0 0, []⟩ "foo" true).1 = 0 ∧
    (opkg_remove_package demo_ext_remove_fails
      ⟨demo_conf demo_two_dests 0 0, []⟩ "foo" true).2.trace.contains
        (Event.remove (some 0) 0 7) = true ∧
    (opkg_remove_package demo_ext_remove_fails
      ⟨demo_conf demo_two_dests 0 0, []⟩ "foo" true).1 = 0 := by
  refine ⟨by decide, by decide, by decide, by decide, by decide, by decide⟩

theorem upgrade_calls_progress {W : Type} (cb : Bool) (s : State W) (n : Int) :
    upgrade_calls (progress cb s n).trace = upgrade_calls s.trace := by
  cases cb <;> simp [progress, State.emit, upgrade_calls, List.filterMap_append]

theorem upgrade_calls_configure_step {W : Type} (X : Ext W) (pat : Option String)
    (l : ConfigureLoop W) (q : Nat) :
    upgrade_calls (configure_step X pat l q).st.trace = upgrade_calls l.st.trace := by
  unfold configure_step
  by_cases hf : name_filtered X pat (l.st.conf.pkgs q).name = true
  · simp [hf]
  · by_cases hu : (l.st.conf.pkgs q).state_status = SS_UNPACKED
    · by_cases hr : (X.opkg_configure l.st.conf q).1 = 0
      · simp [hf, hu, hr, upgrade_calls, List.filterMap_append]
      · simp [hf, hu, hr, upgrade_calls, List.filterMap_append]
    · simp [hf, hu]

theorem upgrade_calls_configure_loop {W : Type} (X : Ext W) (pat : Option String)
    (xs : List Nat) :
    ∀ l : ConfigureLoop W,
      upgrade_calls (configure_loop X pat l xs).st.trace = upgrade_calls l.st.trace := by
  induction xs with
  | nil => intro l; rfl
  | cons q qs ih =>
    intro l
    have h : configure_loop X pat l (q :: qs) = configure_loop X pat (configure_step X pat l q) qs :=
      rfl
    rw [h, ih, upgrade_calls_configure_step]

theorem upgrade_loop_calls {W : Type} (X : Ext W) (cb : Bool) (len : Int) (xs : List Nat) :
    ∀ l : UpgradeLoop W,
      (upgrade_calls (xs.foldl (upgrade_step X cb len) l).st.trace).map Prod.fst =
        (upgrade_calls l.st.trace).map Prod.fst ++ xs := by
  induction xs with
  | nil => intro l; simp
  | cons q qs ih =>
    intro l
    rw [List.foldl_cons, ih]
    simp [upgrade_step, upgrade_calls_progress]
    simp [upgrade_calls, List.filterMap_append]

/-- The part of C7 that the code does satisfy: `opkg_upgrade_all` invokes the
upgrade collaborator exactly once on every package of the installed list, in
list order, whatever codes it returns. -/
theorem upgrade_all_invokes_each {W : Type} (X : Ext W) (c : opkg_conf_t W) (cb : Bool) :
    (upgrade_calls (opkg_upgrade_all X ⟨c, []⟩ cb).2.trace).map Prod.fst =
      X.pkg_hash_fetch_all_installed (X.pkg_info_preinstall_check c) := by
  unfold opkg_upgrade_all
  simp only [progress_conf]
  split
  · rw [upgrade_loop_calls]
    cases cb <;> simp [upgrade_calls, progress, State.emit]
  · split
    · simp only [opkg_configure_packages]
      rw [upgrade_calls_configure_loop, upgrade_loop_calls]
      cases cb <;> simp [upgrade_calls, progress, State.emit]
    · rw [upgrade_calls_progress]
      simp only [opkg_configure_packages]
      rw [upgrade_calls_configure_loop, upgrade_loop_calls]
      cases cb <;> simp [upgrade_calls, progress, State.emit]

/-! ## List synchronisation -/

theorem wrap_int_eq (x : Int) (h1 : -2147483648 ≤ x) (h2 : x < 2147483648) : wrap_int x = x := by
  unfold wrap_int
  omega

theorem download_urls_eq_calls (t : List Event) :
    download_urls t = (download_calls t).map Prod.fst := by
  induction t with
  | nil => rfl
  | cons e es ih =>
    cases e <;> simp_all [download_urls, download_calls, List.filterMap_cons]

/-- One call of `curl_progress_cb` that returns leaves the configuration alone
and adds neither a report of the macro `progress` nor a download. -/
theorem curl_progress_cb_obs {W : Type} (cb_data : curl_cb_data) (s : State W) (prev t d : Int)
    (a : State W × Int) (h : curl_progress_cb cb_data s prev t d = some a) :
    a.1.conf = s.conf ∧ progress_values a.1.trace = progress_values s.trace ∧
      download_calls a.1.trace = download_calls s.trace := by
  simp only [curl_progress_cb] at h
  generalize (if t ≠ 0 then Int.tdiv (d * 100) t else 0) = p at h
  by_cases h1 : p = prev
  · simp only [h1, if_true, Option.some.injEq] at h
    subst h
    exact ⟨rfl, rfl, rfl⟩
  · by_cases h2 : t < 1
    · simp only [h1, h2, if_true, if_false, Option.some.injEq] at h
      subst h
      exact ⟨rfl, rfl, rfl⟩
    · by_cases h3 : cb_data.cb = true
      · simp only [h1, h2, h3, if_true, if_false, Option.some.injEq] at h
        subst h
        simp [State.emit, progress_values, download_calls, List.filterMap_append]
      · simp [h1, h2, h3] at h

/-- With a sink, `curl_progress_cb` always returns. -/
theorem curl_progress_cb_sink {W : Type} (cb_data : curl_cb_data) (hcb : cb_data.cb = true)
    (s : State W) (prev t d : Int) :
    ∃ a, curl_progress_cb cb_data s prev t d = some a := by
  simp only [curl_progress_cb, hcb, if_true]
  generalize (if t ≠ 0 then Int.tdiv (d * 100) t else 0) = p
  by_cases h1 : p = prev
  · exact ⟨(s, prev), by simp only [h1, if_true]⟩
  · by_cases h2 : t < 1
    · exact ⟨(s, p), by simp only [h1, h2, if_true, if_false]⟩
    · exact ⟨_, by simp only [h1, h2, if_false]; rfl⟩

theorem curl_progress_reports_obs {W : Type} (cb_data : curl_cb_data)
    (rs : List (Int × Int)) :
    ∀ (s : State W) (prev : Int) (a : State W × Int),
      curl_progress_reports cb_data rs s prev = some a →
      a.1.conf = s.conf ∧ progress_values a.1.trace = progress_values s.trace ∧
        download_calls a.1.trace = download_calls s.trace := by
  induction rs with
  | nil =>
    intro s prev a h
    simp only [curl_progress_reports, Option.some.injEq] at h
    subst h
    exact ⟨rfl, rfl, rfl⟩
  | cons r rest ih =>
    intro s prev a h
    simp only [curl_progress_reports] at h
    cases h1 : curl_progress_cb cb_data s prev r.1 r.2 with
    | none => simp [h1] at h
    | some b =>
      simp only [h1] at h
      obtain ⟨e1, e2, e3⟩ := curl_progress_cb_obs cb_data s prev r.1 r.2 b h1
      obtain ⟨f1, f2, f3⟩ := ih b.1 b.2 a h
      exact ⟨f1.trans e1, f2.trans e2, f3.trans e3⟩

theorem curl_progress_reports_sink {W : Type} (cb_data : curl_cb_data)
    (hcb : cb_data.cb = true) (rs : List (Int × Int)) :
    ∀ (s : State W) (prev : Int), ∃ a, curl_progress_reports cb_data rs s prev = some a := by
  induction rs with
  | nil => intro s prev; exact ⟨_, rfl⟩
  | cons r rest ih =>
    intro s prev
    obtain ⟨b, hb⟩ := curl_progress_cb_sink cb_data hcb s prev r.1 r.2
    obtain ⟨a, ha⟩ := ih b.1 b.2
    exact ⟨a, by simp only [curl_progress_reports, hb, ha]⟩

theorem inflate_list_obs {W : Type} (X : Ext W) (tmp_file_name list_file_name : String)
    (s : State W) :
    progress_values (inflate_list X tmp_file_name list_file_name s).trace =
        progress_values s.trace ∧
      download_calls (inflate_list X tmp_file_name list_file_name s).trace =
        download_calls s.trace := by
  simp only [inflate_list]
  split_ifs <;> simp [progress_values, download_calls, List.filterMap_append]

/-- What one fetch that returns adds to the trace: no report of the macro
`progress`, and exactly one download, of the list URL of the source into its
destination file, with the code the download collaborator returned on the
configuration the fetch started from.  When the feed is not compressed, or the
download of a compressed feed failed, the configuration afterwards is the one
the collaborator returned (nothing is inflated). -/
theorem fetch_list_obs {W : Type} (X : Ext W) (cb : Bool) (lists_dir tmp : String)
    (cnt done : Int) (s : State W) (prev : Int) (src : pkg_src_t) (a : State W × Int)
    (h : fetch_list X cb tmp cnt done (lists_dir ++ "/" ++ src.name) s prev src = some a) :
    progress_values a.1.trace = progress_values s.trace ∧
    download_calls a.1.trace = download_calls s.trace ++
      [(list_url src, download_dest lists_dir tmp src,
        (X.opkg_download s.conf (list_url src) (download_dest lists_dir tmp src) src.gzip).1)] ∧
    ((src.gzip = false ∨
        (X.opkg_download s.conf (list_url src) (download_dest lists_dir tmp src)
          src.gzip).1 ≠ 0) →
      a.1.conf =
        (X.opkg_download s.conf (list_url src) (download_dest lists_dir tmp src)
          src.gzip).2.1) := by
  unfold fetch_list at h
  by_cases hg : src.gzip = true
  · simp only [hg, if_true] at h
    simp only [download_dest, hg, if_true]
    cases hrep : curl_progress_reports
        { cb := cb,
          start_range := Int.tdiv (wrap_int (100 * done)) cnt,
          finish_range := Int.tdiv (wrap_int (100 * wrap_int (done + 1))) cnt }
        (X.opkg_download s.conf (list_url src) (tmp ++ "/" ++ src.name ++ ".gz") true).2.2
        s prev with
    | none => simp [hrep] at h
    | some b =>
      simp only [hrep] at h
      obtain ⟨_, e2, e3⟩ := curl_progress_reports_obs _ _ _ _ _ hrep
      by_cases hr : (X.opkg_download s.conf (list_url src)
          (tmp ++ "/" ++ src.name ++ ".gz") true).1 = 0
      · simp only [hr, if_true, Option.some.injEq] at h
        subst h
        obtain ⟨i1, i2⟩ := inflate_list_obs X (tmp ++ "/" ++ src.name ++ ".gz")
          (lists_dir ++ "/" ++ src.name)
          { conf := (X.opkg_download s.conf (list_url src)
              (tmp ++ "/" ++ src.name ++ ".gz") true).2.1,
            trace := b.1.trace ++ [Event.download (list_url src)
              (tmp ++ "/" ++ src.name ++ ".gz")
              (some (Int.tdiv (wrap_int (100 * done)) cnt,
                Int.tdiv (wrap_int (100 * wrap_int (done + 1))) cnt)) 0] }
        refine ⟨?_, ?_, ?_⟩
        · rw [i1, ← e2]; simp [progress_values, List.filterMap_append]
        · rw [i2, ← e3, hr]; simp [download_calls, List.filterMap_append]
        · intro hc
          rcases hc with hc | hc
          · simp at hc
          · exact absurd hr hc
      · simp only [hr, if_false, Option.some.injEq] at h
        subst h
        refine ⟨?_, ?_, ?_⟩
        · rw [← e2]; simp [progress_values, List.filterMap_append]
        · rw [← e3]; simp [download_calls, List.filterMap_append]
        · intro _; rfl
  · have hg2 : src.gzip = false := by simpa using hg
    simp only [hg2, Bool.false_eq_true, if_false, Option.some.injEq] at h
    subst h
    simp only [download_dest, hg2, Bool.false_eq_true, if_false]
    refine ⟨?_, ?_, ?_⟩
    · simp [progress_values, List.filterMap_append]
    · simp [download_calls, List.filterMap_append]
    · intro _; trivial

/-- A fetch returns when a sink was supplied, and when the feed is not
compressed. -/
theorem fetch_list_returns {W : Type} (X : Ext W) (cb : Bool) (tmp : String)
    (cnt done : Int) (file : String) (s : State W) (prev : Int) (src : pkg_src_t)
    (h : cb = true ∨ src.gzip = false) :
    ∃ a, fetch_list X cb tmp cnt done file s prev src = some a := by
  unfold fetch_list
  by_cases hg : src.gzip = true
  · have hcb : cb = true := by
      rcases h with h | h
      · exact h
      · rw [hg] at h; exact absurd h (by decide)
    simp only [hg, if_true]
    obtain ⟨b, hb⟩ := curl_progress_reports_sink
      { cb := cb,
        start_range := Int.tdiv (wrap_int (100 * done)) cnt,
        finish_range := Int.tdiv (wrap_int (100 * wrap_int (done + 1))) cnt } hcb
      (X.opkg_download s.conf (list_url src) (tmp ++ "/" ++ src.name ++ ".gz") true).2.2
      s prev
    simp only [hb]
    split_ifs <;> exact ⟨_, rfl⟩
  · simp only [hg]
    exact ⟨_, rfl⟩

theorem check_signature_obs {W : Type} (X : Ext W) (tmp file : String)
    (s : State W) (src : pkg_src_t) :
    progress_values (check_signature X tmp file s src).trace = progress_values s.trace ∧
      download_calls (check_signature X tmp file s src).trace = download_calls s.trace := by
  simp only [check_signature]
  split_ifs <;> simp [progress_values, download_calls, List.filterMap_append]

theorem progress_values_progress {W : Type} (cb : Bool) (s : State W) (v : Int) :
    progress_values (progress cb s v).trace =
      progress_values s.trace ++ (if cb then [v] else []) := by
  cases cb <;> simp [progress, State.emit, progress_values, List.filterMap_append]

theorem download_calls_progress {W : Type} (cb : Bool) (s : State W) (v : Int) :
    download_calls (progress cb s v).trace = download_calls s.trace := by
  cases cb <;> simp [progress, State.emit, download_calls, List.filterMap_append]

/-- What one iteration of the source loop that returns does: it counts the
source, reports the boundary value when there is a sink, and makes exactly one
list download, with the code the download collaborator returned on the
configuration the iteration started from. -/
theorem update_step_obs {W : Type} (X : Ext W) (cb : Bool) (d tmp : String) (cnt : Int)
    (l l1 : UpdateLoop W) (src : pkg_src_t)
    (h : update_step X cb d tmp cnt l src = some l1) :
    l1.sources_done = wrap_int (l.sources_done + 1) ∧
    progress_values l1.st.trace = progress_values l.st.trace ++
      (if cb then [Int.tdiv (wrap_int (100 * wrap_int (l.sources_done + 1))) cnt] else []) ∧
    download_calls l1.st.trace = download_calls l.st.trace ++
      [(list_url src, download_dest d tmp src,
        (X.opkg_download l.st.conf (list_url src) (download_dest d tmp src) src.gzip).1)] := by
  simp only [update_step] at h
  cases hf : fetch_list X cb tmp cnt l.sources_done (d ++ "/" ++ src.name) l.st l.prev src with
  | none => simp [hf] at h
  | some a =>
    simp only [hf, Option.some.injEq] at h
    obtain ⟨f1, f2, _⟩ := fetch_list_obs X cb d tmp cnt l.sources_done l.st l.prev src a hf
    subst h
    refine ⟨rfl, ?_, ?_⟩
    · show progress_values (progress cb _ _).trace = _
      rw [progress_values_progress]
      by_cases hg : X.have_gpgme = true
      · simp only [hg, if_true]
        rw [(check_signature_obs X tmp _ a.1 src).1, f1]
      · simp only [hg, Bool.false_eq_true, if_false]
        rw [f1]
    · show download_calls (progress cb _ _).trace = _
      rw [download_calls_progress]
      by_cases hg : X.have_gpgme = true
      · simp only [hg, if_true]
        rw [(check_signature_obs X tmp _ a.1 src).2, f2]
      · simp only [hg, Bool.false_eq_true, if_false]
        rw [f2]

theorem update_step_returns {W : Type} (X : Ext W) (cb : Bool) (d tmp : String) (cnt : Int)
    (l : UpdateLoop W) (src : pkg_src_t) (h : cb = true ∨ src.gzip = false) :
    ∃ l1, update_step X cb d tmp cnt l src = some l1 := by
  obtain ⟨a, ha⟩ := fetch_list_returns X cb tmp cnt l.sources_done (d ++ "/" ++ src.name)
    l.st l.prev src h
  simp only [update_step, ha]
  exact ⟨_, rfl⟩

theorem update_loop_cons {W : Type} (X : Ext W) (cb : Bool) (d tmp : String) (cnt : Int)
    (src : pkg_src_t) (rest : List pkg_src_t) (l l1 : UpdateLoop W)
    (h : update_step X cb d tmp cnt l src = some l1) :
    update_loop X cb d tmp cnt (src :: rest) l = update_loop X cb d tmp cnt rest l1 := by
  simp only [update_loop, h]

theorem update_loop_cons_some {W : Type} (X : Ext W) (cb : Bool) (d tmp : String) (cnt : Int)
    (src : pkg_src_t) (rest : List pkg_src_t) (l l2 : UpdateLoop W)
    (h : update_loop X cb d tmp cnt (src :: rest) l = some l2) :
    ∃ l1, update_step X cb d tmp cnt l src = some l1 ∧
      update_loop X cb d tmp cnt rest l1 = some l2 := by
  simp only [update_loop] at h
  cases hs : update_step X cb d tmp cnt l src with
  | none => simp [hs] at h
  | some l1 => exact ⟨l1, rfl, by simpa [hs] using h⟩

/-- The source loop returns when a sink was supplied, and when no feed is
compressed. -/
theorem update_loop_returns {W : Type} (X : Ext W) (cb : Bool) (d tmp : String) (cnt : Int)
    (xs : List pkg_src_t) (h : cb = true ∨ ∀ src ∈ xs, src.gzip = false) :
    ∀ l : UpdateLoop W, ∃ l1, update_loop X cb d tmp cnt xs l = some l1 := by
  induction xs with
  | nil => intro l; exact ⟨l, rfl⟩
  | cons src rest ih =>
    intro l
    have hsrc : cb = true ∨ src.gzip = false := by
      rcases h with h | h
      · exact Or.inl h
      · exact Or.inr (h src (List.mem_cons_self src rest))
    have hrest : cb = true ∨ ∀ s ∈ rest, s.gzip = false := by
      rcases h with h | h
      · exact Or.inl h
      · exact Or.inr (fun s hs => h s (List.mem_cons_of_mem src hs))
    obtain ⟨l1, h1⟩ := update_step_returns X cb d tmp cnt l src hsrc
    obtain ⟨l2, h2⟩ := ih hrest l1
    exact ⟨l2, by rw [update_loop_cons X cb d tmp cnt src rest l l1 h1, h2]⟩

theorem update_loop_append {W : Type} (X : Ext W) (cb : Bool) (d tmp : String) (cnt : Int)
    (xs ys : List pkg_src_t) :
    ∀ l : UpdateLoop W,
      update_loop X cb d tmp cnt (xs ++ ys) l =
        (update_loop X cb d tmp cnt xs l).bind (update_loop X cb d tmp cnt ys) := by
  induction xs with
  | nil => intro l; rfl
  | cons src rest ih =>
    intro l
    cases hs : update_step X cb d tmp cnt l src with
    | none => simp [update_loop, hs]
    | some l1 => simp [update_loop, hs, ih]

/-- The list downloads of a source loop that returns: one per source, in list
order, each of the list URL of its source. -/
theorem update_loop_urls {W : Type} (X : Ext W) (cb : Bool) (d tmp : String) (cnt : Int)
    (xs : List pkg_src_t) :
    ∀ l l2 : UpdateLoop W, update_loop X cb d tmp cnt xs l = some l2 →
      (download_calls l2.st.trace).map Prod.fst =
        (download_calls l.st.trace).map Prod.fst ++ xs.map list_url := by
  induction xs with
  | nil =>
    intro l l2 h
    simp only [update_loop, Option.some.injEq] at h
    subst h
    simp
  | cons src rest ih =>
    intro l l2 h
    obtain ⟨l1, h1, h2⟩ := update_loop_cons_some X cb d tmp cnt src rest l l2 h
    rw [ih l1 l2 h2, (update_step_obs X cb d tmp cnt l l1 src h1).2.2]
    simp

theorem boundary_progress_eq (n : Nat) :
    boundary_progress n =
      0 :: (List.range n).map (fun j => ((100 * (j + 1) / n : Nat) : Int)) := by
  unfold boundary_progress
  rw [List.range_succ_eq_map]
  simp [List.map_map, Function.comp_def]

theorem progress_values_update_loop {W : Type} (X : Ext W) (d tmp : String) (n : Nat)
    (xs : List pkg_src_t) :
    ∀ (l l2 : UpdateLoop W) (k : Nat), update_loop X true d tmp (n : Int) xs l = some l2 →
      l.sources_done = (k : Int) → k + xs.length ≤ 21474836 →
      progress_values l2.st.trace =
        progress_values l.st.trace ++
          (List.range xs.length).map (fun j => ((100 * (k + j + 1) / n : Nat) : Int)) := by
  induction xs with
  | nil =>
    intro l l2 k h _ _
    simp only [update_loop, Option.some.injEq] at h
    subst h
    simp
  | cons src rest ih =>
    intro l l2 k h hk hbound
    simp only [List.length_cons] at hbound
    obtain ⟨l1, h1, h2⟩ := update_loop_cons_some X true d tmp (n : Int) src rest l l2 h
    obtain ⟨o1, o2, _⟩ := update_step_obs X true d tmp (n : Int) l l1 src h1
    have hdone : l1.sources_done = ((k + 1 : Nat) : Int) := by
      rw [o1, hk, wrap_int_eq _ (by omega) (by omega)]
      push_cast; ring
    rw [ih l1 l2 (k + 1) h2 hdone (by omega), o2, hk]
    simp only [if_true]
    rw [wrap_int_eq ((k : Int) + 1) (by omega) (by omega),
      wrap_int_eq (100 * ((k : Int) + 1)) (by omega) (by omega)]
    have hdiv : Int.tdiv (100 * ((k : Int) + 1)) (n : Int) = ((100 * (k + 1) / n : Nat) : Int) := by
      rw [Int.ofNat_tdiv]; push_cast; rfl
    rw [hdiv, List.length_cons, List.range_succ_eq_map, List.map_cons, List.map_map]
    simp only [List.append_assoc, List.singleton_append, Nat.add_zero]
    congr 2
    apply List.map_congr_left
    intro j _
    simp only [Function.comp, Nat.succ_eq_add_one]
    congr 3
    omega

theorem boundary_progress_chain_le (n : Nat) : List.Chain' (· ≤ ·) (boundary_progress n) := by
  unfold boundary_progress
  rw [List.chain'_map, List.chain'_range_succ]
  intro m _
  exact Int.ofNat_le.mpr (Nat.div_le_div_right (by omega))

theorem boundary_progress_bounds (n : Nat) :
    ∀ v ∈ boundary_progress n, 0 ≤ v ∧ v ≤ 100 := by
  intro v hv
  unfold boundary_progress at hv
  obtain ⟨k, hk, rfl⟩ := List.mem_map.mp hv
  have hk2 : k ≤ n := Nat.lt_succ_iff.mp (List.mem_range.mp hk)
  refine ⟨Int.ofNat_nonneg _, ?_⟩
  have : 100 * k / n ≤ 100 := by
    rcases Nat.eq_zero_or_pos n with h0 | hpos
    · subst h0; simp
    · exact Nat.div_le_of_le_mul (by nlinarith)
  exact_mod_cast this

theorem boundary_progress_last (n : Nat) (h : 1 ≤ n) :
    (boundary_progress n).getLast? = some 100 := by
  unfold boundary_progress
  rw [List.range_succ, List.map_append]
  simp only [List.map_cons, List.map_nil]
  rw [List.getLast?_append_of_ne_nil _ (by simp)]
  have : 100 * n / n = 100 := Nat.mul_div_cancel 100 (by omega)
  simp [this]

theorem boundary_progress_chain_ne (n : Nat) (h : 1 ≤ n) :
    List.Chain' (· ≠ ·) (boundary_progress n) ↔ n ≤ 100 := by
  unfold boundary_progress
  rw [List.chain'_map, List.chain'_range_succ]
  constructor
  · intro hne
    by_contra hn
    have h0 := hne 0 (by omega)
    apply h0
    have : 100 * (0 + 1) / n = 0 := Nat.div_eq_of_lt (by omega)
    simp [this]
  · intro hn m _ heq
    have heq2 : 100 * m / n = 100 * (m + 1) / n := by exact_mod_cast heq
    have hlt : 100 * m / n < 100 * (m + 1) / n := by
      have e : 100 * (m + 1) = 100 * m + 100 := by ring
      rw [e]
      calc 100 * m / n < 100 * m / n + 1 := Nat.lt_succ_self _
        _ = (100 * m + n) / n := (Nat.add_div_right _ (by omega)).symm
        _ ≤ (100 * m + 100) / n := Nat.div_le_div_right (by omega)
    omega

theorem progress_values_snoc (t : List Event) (e : Event) (he : ∀ v, e ≠ Event.progress v) :
    progress_values (t ++ [e]) = progress_values t := by
  cases e with
  | progress v => exact absurd rfl (he v)
  | _ => simp [progress_values, List.filterMap_append]

theorem download_calls_snoc (t : List Event) (e : Event)
    (he : ∀ url dst cb r, e ≠ Event.download url dst cb r) :
    download_calls (t ++ [e]) = download_calls t := by
  cases e with
  | download url dst cb r => exact absurd rfl (he url dst cb r)
  | _ => simp [download_calls, List.filterMap_append]

/-- What `update_with_tmp` does when it returns: with no temporary directory it
returns 1 and makes no download; with one it returns 0 after a source loop that
returned, over the sources the configuration holds at that moment. -/
theorem update_with_tmp_some {W : Type} (X : Ext W) (cb : Bool) (d : String) (s : State W)
    (prev : Int) (out : UpdateResult W) (h : update_with_tmp X cb d s prev = some out) :
    ((X.mkdtemp s.conf "/tmp/opkg.XXXXXX").1 = none ∧ out.ret = 1 ∧
      out.st.trace = s.trace ++ [Event.mkdtemp false]) ∨
    (∃ tmp l, (X.mkdtemp s.conf "/tmp/opkg.XXXXXX").1 = some tmp ∧
      update_loop X cb d tmp
        (wrap_int ((X.mkdtemp s.conf "/tmp/opkg.XXXXXX").2.pkg_src_list.length))
        (X.mkdtemp s.conf "/tmp/opkg.XXXXXX").2.pkg_src_list
        { st := { conf := (X.mkdtemp s.conf "/tmp/opkg.XXXXXX").2,
                  trace := s.trace ++ [Event.mkdtemp true] },
          sources_done := 0, prev := prev } = some l ∧
      out.ret = 0 ∧ out.st.trace = l.st.trace ++ [Event.rmdir tmp]) := by
  unfold update_with_tmp at h
  cases hm : (X.mkdtemp s.conf "/tmp/opkg.XXXXXX").1 with
  | none =>
    simp only [hm, Option.some.injEq] at h
    subst h
    exact Or.inl ⟨rfl, rfl, rfl⟩
  | some tmp =>
    simp only [hm, update_sources, Option.isSome_some] at h
    cases hl : update_loop X cb d tmp
        (wrap_int ((X.mkdtemp s.conf "/tmp/opkg.XXXXXX").2.pkg_src_list.length))
        (X.mkdtemp s.conf "/tmp/opkg.XXXXXX").2.pkg_src_list
        { st := { conf := (X.mkdtemp s.conf "/tmp/opkg.XXXXXX").2,
                  trace := s.trace ++ [Event.mkdtemp true] },
          sources_done := 0, prev := prev } with
    | none => simp [hl] at h
    | some l =>
      simp only [hl, Option.some.injEq] at h
      subst h
      exact Or.inr ⟨tmp, l, rfl, hl, rfl, rfl⟩

/-- `update_with_tmp` returns when a sink was supplied. -/
theorem update_with_tmp_returns {W : Type} (X : Ext W) (d : String) (s : State W)
    (prev : Int) : ∃ out, update_with_tmp X true d s prev = some out := by
  simp only [update_with_tmp]
  cases hm : (X.mkdtemp s.conf "/tmp/opkg.XXXXXX").1 with
  | none => exact ⟨_, rfl⟩
  | some tmp =>
    simp only [update_sources, Option.isSome_some]
    obtain ⟨l, hl⟩ := update_loop_returns X true d tmp
      (wrap_int ((X.mkdtemp s.conf "/tmp/opkg.XXXXXX").2.pkg_src_list.length))
      (X.mkdtemp s.conf "/tmp/opkg.XXXXXX").2.pkg_src_list (Or.inl rfl)
      { st := { conf := (X.mkdtemp s.conf "/tmp/opkg.XXXXXX").2,
                trace := s.trace ++ [Event.mkdtemp true] },
        sources_done := 0, prev := prev }
    simp only [hl]
    exact ⟨_, rfl⟩

/-- With a sink, `opkg_update_package_lists` always returns. -/
theorem update_lists_returns {W : Type} (X : Ext W) (s : State W) (prev : Int) :
    ∃ out, opkg_update_package_lists X s true prev = some out := by
  simp only [opkg_update_package_lists]
  split_ifs
  · exact update_with_tmp_returns X _ _ prev
  · exact ⟨_, rfl⟩
  · exact ⟨_, rfl⟩
  · exact update_with_tmp_returns X _ _ prev

theorem progress_values_update_with_tmp {W : Type} (X : Ext W) (d : String) (s : State W)
    (prev : Int) (out : UpdateResult W)
    (htmp : ∀ c1 t, (X.mkdtemp c1 t).2.pkg_src_list = c1.pkg_src_list)
    (h : update_with_tmp X true d s prev = some out) (hok : out.ret = 0)
    (h2 : s.conf.pkg_src_list.length ≤ 21474836) :
    progress_values out.st.trace =
      progress_values s.trace ++
        (List.range s.conf.pkg_src_list.length).map
          (fun j => ((100 * (j + 1) / s.conf.pkg_src_list.length : Nat) : Int)) := by
  rcases update_with_tmp_some X true d s prev out h with ⟨_, h1, _⟩ | ⟨tmp, l, _, hl, _, ht⟩
  · rw [h1] at hok; exact absurd hok (by decide)
  · rw [htmp, wrap_int_eq _ (by omega) (by omega)] at hl
    rw [ht, progress_values_snoc _ _ (by intro v; simp),
      progress_values_update_loop X d tmp _ _ _ _ 0 hl rfl (by simpa using h2),
      progress_values_snoc _ _ (by intro v; simp)]
    simp

/-- The values a reported run that returns 0 hands to the sink through the
macro `progress`: the value at the start and one at each source boundary. -/
theorem update_progress_values {W : Type} (X : Ext W) (c : opkg_conf_t W) (prev : Int)
    (hmk : ∀ c1 d, (X.file_mkdir_hier c1 d).2.pkg_src_list = c1.pkg_src_list)
    (htmp : ∀ c1 t, (X.mkdtemp c1 t).2.pkg_src_list = c1.pkg_src_list)
    (hok : (opkg_update_package_lists X ⟨c, []⟩ true prev).map UpdateResult.ret = some 0)
    (h2 : c.pkg_src_list.length ≤ 21474836) :
    ∃ out, opkg_update_package_lists X ⟨c, []⟩ true prev = some out ∧ out.ret = 0 ∧
      progress_values out.st.trace = boundary_progress c.pkg_src_list.length := by
  cases hrun : opkg_update_package_lists X ⟨c, []⟩ true prev with
  | none => simp [hrun] at hok
  | some out =>
    have hret : out.ret = 0 := by simpa [hrun] using hok
    refine ⟨out, rfl, hret, ?_⟩
    rw [boundary_progress_eq]
    unfold opkg_update_package_lists at hrun
    simp only [progress, State.emit, if_true, List.nil_append] at hrun
    generalize lists_dir_of c = d at hrun
    by_cases hd : X.file_is_dir c d = true
    · simp only [hd, if_true] at hrun
      rw [progress_values_update_with_tmp X _ _ _ _ htmp hrun hret (by simpa using h2)]
      simp [progress_values]
    · simp only [hd] at hrun
      by_cases he : X.file_exists c d = true
      · simp only [he, if_true, Bool.false_eq_true, if_false, Option.some.injEq] at hrun
        subst hrun
        exact absurd hret (by simp)
      · simp only [he] at hrun
        by_cases hc : (X.file_mkdir_hier c d).1 = 0
        · simp only [hc, ne_eq, not_true_eq_false, if_false, Bool.false_eq_true] at hrun
          rw [progress_values_update_with_tmp X _ _ _ _ htmp hrun hret (by simpa [hmk] using h2)]
          simp [progress_values, hmk, List.filterMap_append]
        · simp only [hc, ne_eq, not_false_eq_true, if_true, Bool.false_eq_true, if_false,
            Option.some.injEq] at hrun
          subst hrun
          exact absurd hret (by simp)

/-- C9, as amended.  For a run that is reported to a sink, returns 0 (so it
reached the loop) and goes over `N` sources with `1 ≤ N` and `100 * N` within
the `int` range, the directory collaborators leaving the source list alone, the
values reported through the macro `progress` at the start and at the source
boundaries are `100 * k / N` for `k = 0..N`; this sequence is non-decreasing,
stays within `[0,100]` and ends at 100, and it has no two consecutive identical
values exactly when `N ≤ 100`.  This holds for every value of the `static int
prev` of `curl_progress_cb` on entry. -/
theorem update_progress_sequence {W : Type} (X : Ext W) (c : opkg_conf_t W) (prev : Int)
    (hmk : ∀ c1 d, (X.file_mkdir_hier c1 d).2.pkg_src_list = c1.pkg_src_list)
    (htmp : ∀ c1 t, (X.mkdtemp c1 t).2.pkg_src_list = c1.pkg_src_list)
    (hok : (opkg_update_package_lists X ⟨c, []⟩ true prev).map UpdateResult.ret = some 0)
    (h1 : 1 ≤ c.pkg_src_list.length) (h2 : c.pkg_src_list.length ≤ 21474836) :
    ∃ out, opkg_update_package_lists X ⟨c, []⟩ true prev = some out ∧ out.ret = 0 ∧
      progress_values out.st.trace = boundary_progress c.pkg_src_list.length ∧
      List.Chain' (· ≤ ·) (progress_values out.st.trace) ∧
      (∀ v ∈ progress_values out.st.trace, 0 ≤ v ∧ v ≤ 100) ∧
      (progress_values out.st.trace).getLast? = some 100 ∧
      (List.Chain' (· ≠ ·) (progress_values out.st.trace) ↔ c.pkg_src_list.length ≤ 100) := by
  obtain ⟨out, hrun, hret, heq⟩ := update_progress_values X c prev hmk htmp hok h2
  refine ⟨out, hrun, hret, heq, ?_⟩
  rw [heq]
  exact ⟨boundary_progress_chain_le _, boundary_progress_bounds _,
    boundary_progress_last _ h1, boundary_progress_chain_ne _ h1⟩

theorem update_progress_sequence_witness :
    (opkg_update_package_lists (demo_ext (fun _ => 0) (fun _ => 0))
      ⟨demo_conf_sources demo_sources, []⟩ true (-1)).map UpdateResult.ret = some 0 ∧
    1 ≤ (demo_conf_sources demo_sources).pkg_src_list.length ∧
    (demo_conf_sources demo_sources).pkg_src_list.length ≤ 21474836 ∧
    ∃ out, opkg_update_package_lists (demo_ext (fun _ => 0) (fun _ => 0))
        ⟨demo_conf_sources demo_sources, []⟩ true (-1) = some out ∧
      progress_values out.st.trace = [0, 33, 66, 100] :=
  ⟨by decide, by decide, by decide,
   (update_progress_sequence (demo_ext (fun _ => 0) (fun _ => 0))
      (demo_conf_sources demo_sources) (-1) (fun _ _ => rfl) (fun _ _ => rfl) (by decide)
      (by decide) (by decide)).imp
      (fun _ h => ⟨h.1, h.2.2.1.trans (by decide)⟩)⟩

/-- C9 fails as stated.  With no source configured the run returns 0 and
reports the single value 0, so the sequence does not end at 100; with 101
sources the first two values reported are both 0. -/
theorem update_progress_counterexample :
    ((opkg_update_package_lists (demo_ext (fun _ => 0) (fun _ => 0))
        ⟨demo_conf_sources [], []⟩ true (-1)).map UpdateResult.ret = some 0 ∧
      (opkg_update_package_lists (demo_ext (fun _ => 0) (fun _ => 0))
        ⟨demo_conf_sources [], []⟩ true (-1)).map (fun out => progress_values out.st.trace)
        = some [0] ∧
      (opkg_update_package_lists (demo_ext (fun _ => 0) (fun _ => 0))
        ⟨demo_conf_sources [], []⟩ true (-1)).map
          (fun out => (progress_values out.st.trace).getLast?) ≠ some (some 100)) ∧
    ((opkg_update_package_lists (demo_ext (fun _ => 0) (fun _ => 0))
        ⟨demo_conf_sources (List.replicate 101 ⟨"feed", "http://feed1", none, false⟩), []⟩
        true (-1)).map UpdateResult.ret = some 0 ∧
      ∃ out, opkg_update_package_lists (demo_ext (fun _ => 0) (fun _ => 0))
          ⟨demo_conf_sources (List.replicate 101 ⟨"feed", "http://feed1", none, false⟩), []⟩
          true (-1) = some out ∧
        (progress_values out.st.trace).take 2 = [0, 0]) := by
  refine ⟨⟨by decide, by decide, by decide⟩, by decide, ?_⟩
  obtain ⟨out, hrun, _, heq⟩ := update_progress_values (demo_ext (fun _ => 0) (fun _ => 0))
    (demo_conf_sources (List.replicate 101 ⟨"feed", "http://feed1", none, false⟩)) (-1)
    (fun _ _ => rfl) (fun _ _ => rfl) (by decide) (by simp [demo_conf_sources])
  refine ⟨out, hrun, ?_⟩
  have hlen : (demo_conf_sources
      (List.replicate 101 ⟨"feed", "http://feed1", none, false⟩)).pkg_src_list.length = 101 := by
    simp [demo_conf_sources]
  rw [heq, hlen]
  decide

/-- A visit of the source loop does not depend on what came before: after any
prefix `xs` of the sources that returned in the state `l`, the next source is
fetched by one iteration from `l`; when that iteration returns, its single
list download carries the code of the download collaborator, and whatever that
code is the loop goes on with the remaining sources. -/
theorem update_loop_visit {W : Type} (X : Ext W) (cb : Bool) (d tmp : String) (cnt : Int)
    (xs ys : List pkg_src_t) (src : pkg_src_t) (l0 l l1 : UpdateLoop W)
    (hxs : update_loop X cb d tmp cnt xs l0 = some l)
    (hstep : update_step X cb d tmp cnt l src = some l1) :
    update_loop X cb d tmp cnt (xs ++ [src]) l0 = some l1 ∧
    download_calls l1.st.trace = download_calls l.st.trace ++
      [(list_url src, download_dest d tmp src,
        (X.opkg_download l.st.conf (list_url src) (download_dest d tmp src) src.gzip).1)] ∧
    update_loop X cb d tmp cnt (xs ++ src :: ys) l0 = update_loop X cb d tmp cnt ys l1 := by
  refine ⟨?_, (update_step_obs X cb d tmp cnt l l1 src hstep).2.2, ?_⟩
  · rw [update_loop_append, hxs]
    simp [update_loop, hstep]
  · rw [update_loop_append, hxs]
    simp [update_loop, hstep]

theorem update_with_tmp_urls {W : Type} (X : Ext W) (cb : Bool) (d : String) (s : State W)
    (prev : Int) (out : UpdateResult W) (h : update_with_tmp X cb d s prev = some out)
    (tmp : String) (hm : (X.mkdtemp s.conf "/tmp/opkg.XXXXXX").1 = some tmp) :
    out.ret = 0 ∧
    (download_calls out.st.trace).map Prod.fst =
      (download_calls s.trace).map Prod.fst ++
        (X.mkdtemp s.conf "/tmp/opkg.XXXXXX").2.pkg_src_list.map list_url := by
  rcases update_with_tmp_some X cb d s prev out h with ⟨h0, _, _⟩ | ⟨tmp1, l, _, hl, hret, ht⟩
  · rw [hm] at h0; exact absurd h0 (by simp)
  · refine ⟨hret, ?_⟩
    rw [ht, download_calls_snoc _ _ (by intro _ _ _ _; simp),
      update_loop_urls X cb d tmp1 _ _ _ l hl,
      download_calls_snoc _ _ (by intro _ _ _ _; simp)]

/-- The part of C10 that the code does satisfy.  With a sink the run always
returns.  A run that returns, with or without a sink, has returned 0 and made
exactly one list download for each configured source, in list order, when the
lists directory exists, or does not exist and is created, and the temporary
directory is created; and the run returns 1 without a download when the lists
path is not a directory and exists, or cannot be created. -/
theorem update_partial_failure {W : Type} (X : Ext W) (c : opkg_conf_t W) (cb : Bool)
    (prev : Int) :
    (cb = true → ∃ out, opkg_update_package_lists X ⟨c, []⟩ cb prev = some out) ∧
    (X.file_is_dir c (lists_dir_of c) = true →
      ∀ tmp, (X.mkdtemp c "/tmp/opkg.XXXXXX").1 = some tmp →
        ∀ out, opkg_update_package_lists X ⟨c, []⟩ cb prev = some out →
          out.ret = 0 ∧
          (download_calls out.st.trace).map Prod.fst =
            (X.mkdtemp c "/tmp/opkg.XXXXXX").2.pkg_src_list.map list_url) ∧
    (X.file_is_dir c (lists_dir_of c) = false → X.file_exists c (lists_dir_of c) = false →
      (X.file_mkdir_hier c (lists_dir_of c)).1 = 0 →
      ∀ tmp, (X.mkdtemp (X.file_mkdir_hier c (lists_dir_of c)).2 "/tmp/opkg.XXXXXX").1
          = some tmp →
        ∀ out, opkg_update_package_lists X ⟨c, []⟩ cb prev = some out →
          out.ret = 0 ∧
          (download_calls out.st.trace).map Prod.fst =
            (X.mkdtemp (X.file_mkdir_hier c (lists_dir_of c)).2
              "/tmp/opkg.XXXXXX").2.pkg_src_list.map list_url) ∧
    (X.file_is_dir c (lists_dir_of c) = false →
      (X.file_exists c (lists_dir_of c) = true ∨ (X.file_mkdir_hier c (lists_dir_of c)).1 ≠ 0) →
        ∃ out, opkg_update_package_lists X ⟨c, []⟩ cb prev = some out ∧ out.ret = 1 ∧
          download_calls out.st.trace = []) := by
  have hp : download_calls (progress cb (⟨c, []⟩ : State W) 0).trace = [] := by
    rw [download_calls_progress]; rfl
  refine ⟨?_, ?_, ?_, ?_⟩
  · intro hcb
    subst hcb
    exact update_lists_returns X ⟨c, []⟩ prev
  · intro hd tmp hm out hrun
    simp only [opkg_update_package_lists, progress_conf, hd, if_true] at hrun
    have h := update_with_tmp_urls X cb (lists_dir_of c) (progress cb ⟨c, []⟩ 0) prev out hrun
      tmp (by simpa [progress_conf] using hm)
    rw [hp] at h
    simpa [progress_conf] using h
  · intro hd he hc tmp hm out hrun
    simp only [opkg_update_package_lists, progress_conf, hd, he, hc, Bool.false_eq_true,
      if_false, ne_eq, not_true_eq_false] at hrun
    have h := update_with_tmp_urls X cb (lists_dir_of c) _ prev out hrun tmp hm
    rw [download_calls_snoc _ _ (by intro _ _ _ _; simp), hp] at h
    simpa using h
  · intro hd hor
    simp only [opkg_update_package_lists, progress_conf, hd, Bool.false_eq_true, if_false]
    rcases hor with he | hc
    · simp only [he, if_true]
      exact ⟨_, rfl, rfl, hp⟩
    · by_cases he : X.file_exists c (lists_dir_of c) = true
      · simp only [he, if_true]
        exact ⟨_, rfl, rfl, hp⟩
      · simp only [he, hc, Bool.false_eq_true, if_false, ne_eq, not_false_eq_true, if_true]
        exact ⟨_, rfl, rfl, by
          show download_calls (_ ++ [_]) = []
          rw [download_calls_snoc _ _ (by intro _ _ _ _; simp), hp]⟩

/-- C10, the failing input evaluated.  Three sources, the second one
compressed, and no sink (`progress_callback` is `NULL`); the lists directory
exists and the temporary directory is created.  The download of the second
source reports 500 of 1000 bytes to `curl_progress_cb`, which calls the `NULL`
sink at line 118: the run does not return, so it neither returns 0 nor attempts
the third download.  With a sink the same run returns 0 and attempts the three
downloads, the failed second one included. -/
theorem update_null_sink_crash :
    (demo_ext (fun _ => 0) (fun _ => 0)).file_is_dir (demo_conf_sources demo_sources)
      (lists_dir_of (demo_conf_sources demo_sources)) = true ∧
    ((demo_ext (fun _ => 0) (fun _ => 0)).mkdtemp (demo_conf_sources demo_sources)
      "/tmp/opkg.XXXXXX").1 = some "/tmp/opkg.a1b2c3" ∧
    ((demo_ext (fun _ => 0) (fun _ => 0)).opkg_download (demo_conf_sources demo_sources)
      "http://feed2/Packages.gz" "/tmp/opkg.a1b2c3/extra.gz" true).2.2
      = [(0, 0), (1000, 500), (1000, 1000)] ∧
    (curl_progress_cb { cb := false, start_range := 33, finish_range := 66 }
      (⟨demo_conf_sources demo_sources, []⟩ : State Unit) 0 1000 500).isNone = true ∧
    (opkg_update_package_lists (demo_ext (fun _ => 0) (fun _ => 0))
      ⟨demo_conf_sources demo_sources, []⟩ false (-1)).isNone = true ∧
    (opkg_update_package_lists (demo_ext (fun _ => 0) (fun _ => 0))
      ⟨demo_conf_sources demo_sources, []⟩ true (-1)).map UpdateResult.ret = some 0 ∧
    (opkg_update_package_lists (demo_ext (fun _ => 0) (fun _ => 0))
      ⟨demo_conf_sources demo_sources, []⟩ true (-1)).map
        (fun out => download_calls out.st.trace) =
      some [("http://feed1/Packages", "/usr/lib/opkg/lists/base", 0),
        ("http://feed2/Packages.gz", "/tmp/opkg.a1b2c3/extra.gz", 1),
        ("file:///feed3/dists/main/Packages", "/usr/lib/opkg/lists/local", 0)] := by
  refine ⟨by decide, by decide, by decide, by decide, by decide, by decide, by decide⟩
/-! ## Configure-all twice -/

theorem configure_step_name {W : Type} (X : Ext W) (pat : Option String)
    (hcfg : ∀ c q, (X.opkg_configure c q).2.pkgs = c.pkgs)
    (l : ConfigureLoop W) (q a : Nat) :
    ((configure_step X pat l q).st.conf.pkgs a).name = (l.st.conf.pkgs a).name := by
  rw [configure_step_pkgs X pat hcfg]
  split
  · split
    · next h => rw [h]
    · split <;> rfl
  · rfl

theorem configure_loop_name {W : Type} (X : Ext W) (pat : Option String)
    (hcfg : ∀ c q, (X.opkg_configure c q).2.pkgs = c.pkgs) (a : Nat) (xs : List Nat) :
    ∀ l : ConfigureLoop W,
      ((configure_loop X pat l xs).st.conf.pkgs a).name = (l.st.conf.pkgs a).name := by
  induction xs with
  | nil => intro l; rfl
  | cons q qs ih =>
    intro l
    have h : configure_loop X pat l (q :: qs) =
        configure_loop X pat (configure_step X pat l q) qs := rfl
    rw [h, ih, configure_step_name X pat hcfg]

/-- A record that is `UNPACKED` after an iteration was `UNPACKED` before it. -/
theorem configure_step_unpacked_before {W : Type} (X : Ext W) (pat : Option String)
    (hcfg : ∀ c q, (X.opkg_configure c q).2.pkgs = c.pkgs)
    (l : ConfigureLoop W) (q a : Nat)
    (h : ((configure_step X pat l q).st.conf.pkgs a).state_status = SS_UNPACKED) :
    (l.st.conf.pkgs a).state_status = SS_UNPACKED := by
  rw [configure_step_pkgs X pat hcfg] at h
  split at h
  · split at h
    · simp at h
    · split at h
      · simp at h
      · exact h
  · exact h

theorem configure_loop_unpacked_before {W : Type} (X : Ext W) (pat : Option String)
    (hcfg : ∀ c q, (X.opkg_configure c q).2.pkgs = c.pkgs) (a : Nat) (xs : List Nat) :
    ∀ l : ConfigureLoop W,
      ((configure_loop X pat l xs).st.conf.pkgs a).state_status = SS_UNPACKED →
      (l.st.conf.pkgs a).state_status = SS_UNPACKED := by
  induction xs with
  | nil => intro l h; exact h
  | cons q qs ih =>
    intro l h
    exact configure_step_unpacked_before X pat hcfg l q a (ih (configure_step X pat l q) h)

/-- After a loop that ends with `err = 0`, no listed package whose name passes
the filter is `UNPACKED`. -/
theorem configure_loop_none_unpacked {W : Type} (X : Ext W) (pat : Option String)
    (hcfg : ∀ c q, (X.opkg_configure c q).2.pkgs = c.pkgs) (xs : List Nat) :
    ∀ l : ConfigureLoop W, (configure_loop X pat l xs).err = 0 → ∀ q ∈ xs,
      name_filtered X pat ((configure_loop X pat l xs).st.conf.pkgs q).name = false →
      ((configure_loop X pat l xs).st.conf.pkgs q).state_status ≠ SS_UNPACKED := by
  induction xs with
  | nil => intro l _ q hq; simp at hq
  | cons r rs ih =>
    intro l herr q hq hname hunp
    have hloop : configure_loop X pat l (r :: rs) =
        configure_loop X pat (configure_step X pat l r) rs := rfl
    rw [hloop] at herr hname hunp
    rcases List.mem_cons.mp hq with hqr | hqrs
    · subst hqr
      have hstep := configure_step_err_zero X pat l q
        (configure_loop_err_zero X pat rs _ herr)
      have hu1 := configure_loop_unpacked_before X pat hcfg q rs _ hunp
      have hu0 := configure_step_unpacked_before X pat hcfg l q q hu1
      rw [configure_loop_name X pat hcfg, configure_step_name X pat hcfg] at hname
      have hr := hstep.2 hname hu0
      rw [configure_step_pkgs X pat hcfg] at hu1
      simp [hname, hu0, hr] at hu1
    · exact ih _ herr q hqrs hname hunp

/-- A loop over packages none of which is both unfiltered and `UNPACKED` does
nothing. -/
theorem configure_loop_noop {W : Type} (X : Ext W) (pat : Option String) (xs : List Nat)
    (l : ConfigureLoop W)
    (h : ∀ q ∈ xs, name_filtered X pat (l.st.conf.pkgs q).name = false →
      (l.st.conf.pkgs q).state_status ≠ SS_UNPACKED) :
    configure_loop X pat l xs = l := by
  induction xs with
  | nil => rfl
  | cons r rs ih =>
    have hstep : configure_step X pat l r = l := by
      unfold configure_step
      by_cases hf : name_filtered X pat (l.st.conf.pkgs r).name = true
      · simp [hf]
      · have hf2 : name_filtered X pat (l.st.conf.pkgs r).name = false := by
          simpa using hf
        simp [hf2, h r (List.mem_cons_self r rs) hf2]
    have hloop : configure_loop X pat l (r :: rs) =
        configure_loop X pat (configure_step X pat l r) rs := rfl
    rw [hloop, hstep]
    exact ih (fun q hq => h q (List.mem_cons_of_mem r hq))

/-- An iteration leaves a record that is `INSTALLED` as it is. -/
theorem configure_step_installed_record {W : Type} (X : Ext W) (pat : Option String)
    (hcfg : ∀ c q, (X.opkg_configure c q).2.pkgs = c.pkgs)
    (l : ConfigureLoop W) (q a : Nat)
    (h : (l.st.conf.pkgs a).state_status = SS_INSTALLED) :
    (configure_step X pat l q).st.conf.pkgs a = l.st.conf.pkgs a := by
  rw [configure_step_pkgs X pat hcfg]
  split
  · next hc =>
    split
    · next haq =>
      subst haq
      rw [h] at hc
      exact absurd hc.2.1 (by decide)
    · split
      · rw [← h]
      · rfl
  · rfl

theorem configure_loop_installed_record {W : Type} (X : Ext W) (pat : Option String)
    (hcfg : ∀ c q, (X.opkg_configure c q).2.pkgs = c.pkgs) (a : Nat) (xs : List Nat) :
    ∀ l : ConfigureLoop W, (l.st.conf.pkgs a).state_status = SS_INSTALLED →
      (configure_loop X pat l xs).st.conf.pkgs a = l.st.conf.pkgs a := by
  induction xs with
  | nil => intro l _; rfl
  | cons q qs ih =>
    intro l h
    have hloop : configure_loop X pat l (q :: qs) =
        configure_loop X pat (configure_step X pat l q) qs := rfl
    have hs := configure_step_installed_record X pat hcfg l q a h
    rw [hloop, ih _ (by rw [hs]; exact h), hs]

/-- C11, as amended.  For a configure collaborator that leaves the package
records alone, calling `opkg_configure_packages` a second time with the same
pattern changes no record that is `INSTALLED` when the second call starts; and
when the first call returned 0 and the second call fetches no package that the
first did not, the second call invokes no collaborator, leaves the whole
configuration (every `state_status` and `state_flag`) as it is and returns
0. -/
theorem configure_twice {W : Type} (X : Ext W) (c : opkg_conf_t W)
    (pkg_name : Option String)
    (hcfg : ∀ c1 q, (X.opkg_configure c1 q).2.pkgs = c1.pkgs) :
    (∀ p, ((opkg_configure_packages X ⟨c, []⟩ pkg_name).2.conf.pkgs p).state_status
        = SS_INSTALLED →
      (opkg_configure_packages X (opkg_configure_packages X ⟨c, []⟩ pkg_name).2
          pkg_name).2.conf.pkgs p =
        (opkg_configure_packages X ⟨c, []⟩ pkg_name).2.conf.pkgs p) ∧
    ((∀ q ∈ X.pkg_hash_fetch_available (opkg_configure_packages X ⟨c, []⟩ pkg_name).2.conf,
        q ∈ X.pkg_hash_fetch_available c) →
      (opkg_configure_packages X ⟨c, []⟩ pkg_name).1 = 0 →
      opkg_configure_packages X (opkg_configure_packages X ⟨c, []⟩ pkg_name).2 pkg_name =
        (0, (opkg_configure_packages X ⟨c, []⟩ pkg_name).2)) := by
  constructor
  · intro p hp
    exact configure_loop_installed_record X pkg_name hcfg p _ _ hp
  · intro hlist hok
    have hnone := configure_loop_none_unpacked X pkg_name hcfg (X.pkg_hash_fetch_available c)
      ⟨⟨c, []⟩, 0⟩ hok
    have hnoop := configure_loop_noop X pkg_name
      (X.pkg_hash_fetch_available (opkg_configure_packages X ⟨c, []⟩ pkg_name).2.conf)
      ⟨(opkg_configure_packages X ⟨c, []⟩ pkg_name).2, 0⟩
      (fun q hq => hnone q (hlist q hq))
    show ((configure_loop X pkg_name ⟨(opkg_configure_packages X ⟨c, []⟩ pkg_name).2, 0⟩
        (X.pkg_hash_fetch_available (opkg_configure_packages X ⟨c, []⟩ pkg_name).2.conf)).err,
      (configure_loop X pkg_name ⟨(opkg_configure_packages X ⟨c, []⟩ pkg_name).2, 0⟩
        (X.pkg_hash_fetch_available
          (opkg_configure_packages X ⟨c, []⟩ pkg_name).2.conf)).st) = _
    rw [hnoop]

theorem configure_twice_witness :
    (opkg_configure_packages (demo_ext (fun _ => 0) (fun _ => 0))
      ⟨demo_conf demo_unpacked 0 0, []⟩ (some "bar")).1 = 0 ∧
    ((opkg_configure_packages (demo_ext (fun _ => 0) (fun _ => 0))
      ⟨demo_conf demo_unpacked 0 0, []⟩ (some "bar")).2.conf.pkgs 1).state_status
      = SS_INSTALLED ∧
    (opkg_configure_packages (demo_ext (fun _ => 0) (fun _ => 0))
      (opkg_configure_packages (demo_ext (fun _ => 0) (fun _ => 0))
        ⟨demo_conf demo_unpacked 0 0, []⟩ (some "bar")).2 (some "bar")).1 = 0 :=
  ⟨by decide, by decide,
   congrArg Prod.fst
    ((configure_twice (demo_ext (fun _ => 0) (fun _ => 0)) (demo_conf demo_unpacked 0 0)
      (some "bar") (fun _ _ => rfl)).2 (fun _ h => h) (by decide))⟩

/-- C11 fails as stated: when the configure collaborator fails for a package
(code 5 for the record at address 1), the package stays `UNPACKED` after the
first call, the second call invokes the collaborator on it again and returns
5, not 0. -/
theorem configure_twice_counterexample :
    ((opkg_configure_packages (demo_ext (fun a => if a = 1 then 5 else 0) (fun _ => 0))
      ⟨demo_conf demo_unpacked 0 0, []⟩ none).2.conf.pkgs 1).state_status = SS_UNPACKED ∧
    configure_calls (opkg_configure_packages
      (demo_ext (fun a => if a = 1 then 5 else 0) (fun _ => 0))
      ⟨(opkg_configure_packages (demo_ext (fun a => if a = 1 then 5 else 0) (fun _ => 0))
        ⟨demo_conf demo_unpacked 0 0, []⟩ none).2.conf, []⟩ none).2.trace = [(1, 5)] ∧
    (opkg_configure_packages (demo_ext (fun a => if a = 1 then 5 else 0) (fun _ => 0))
      (opkg_configure_packages (demo_ext (fun a => if a = 1 then 5 else 0) (fun _ => 0))
        ⟨demo_conf demo_unpacked 0 0, []⟩ none).2 none).1 = 5 := by
  refine ⟨by decide, by decide, by decide⟩

end Opkg
